import Mathlib

/-!
# Oshi3 Nihonto: extraction and translation scripts

A shallow embedding of `src/extract.js` (page classification, pairing, upload and
insert loop of `processVolume`) and of `src/translate.js` (`processItem`), with the
properties of the specification stated and proved over it.

Conventions of the embedding.

* A rasterised page is represented by its encoded size in bytes (`fs.statSync(..).size`);
  the sorted directory listing `files` is the list of these sizes, and a local image
  path is represented by the index of the page in `files`.
* JavaScript numbers are IEEE doubles.  File sizes are integers below `2^53` and
  `1024 = 2^10`, so `stats.size / 1024` is computed without rounding; it is embedded
  as the exact rational quotient.
* External services (asset store, catalog repository, OCR, completion service) are
  parameters: an environment fixes the outcome of every call the code makes.
* Effects are recorded as an explicit trace of events, in program order.
-/

namespace Oshi3

/-! ## `src/extract.js` -/

/-- The two labels returned by `classifyPage`. -/
inductive PageType where
  | oshigata
  | setsumei
  deriving DecidableEq, Repr

/-- The value of `stats.size / 1024` in `classifyPage` (extract.js:56). -/
def fileSizeKB (size : Nat) : ℚ := (size : ℚ) / 1024

/-- Embedding of `classifyPage` (extract.js:54-61): the argument is `stats.size`. -/
def classifyPage (size : Nat) : PageType :=
  if fileSizeKB size > 150 then PageType.oshigata else PageType.setsumei

/-- A volume descriptor, an entry of `VOLUMES` (extract.js:21-34). -/
structure Volume where
  number : Nat
  contentStart : Nat
  contentEnd : Nat
  deriving DecidableEq, Repr

/-- The row handed to `insert` by `createDatabaseRecord` (extract.js:98-105). -/
structure Record where
  volume : Nat
  item_number : Nat
  oshigata_url : String
  setsumei_url : String
  pdf_page_oshigata : Nat
  pdf_page_setsumei : Nat
  deriving DecidableEq, Repr

/-- The three awaited external calls inside the `try` block (extract.js:180-192). -/
inductive Call where
  | uploadOshigata
  | uploadSetsumei
  | insert
  deriving DecidableEq, Repr

/-- The environment of one run of `processVolume`: `ok i c` tells whether call `c`
made for the pair starting at index `i` succeeds (each such call is made at most once
in a run, so this covers every pattern of failures), and `publicUrl` is the asset
store's `getPublicUrl`. -/
structure Env where
  ok : Nat → Call → Bool
  publicUrl : String → String

/-- Observable effects of the pairing loop, in program order.
`upload imagePath storagePath ok` is one call of `uploadImage` (the local image is
named by its index in `files`), `insert row ok` one call of `createDatabaseRecord`,
`warn n` the warning of extract.js:172 and `error n` the message of extract.js:196,
both of which print the current `itemNumber`. -/
inductive Event where
  | upload (imagePath : Nat) (storagePath : String) (ok : Bool)
  | insert (row : Record) (ok : Bool)
  | warn (itemNumber : Nat)
  | error (itemNumber : Nat)
  deriving DecidableEq, Repr

/-- JavaScript `String.prototype.padStart` with a one-character filler. -/
def padStart (s : String) (targetLength : Nat) (c : Char) : String :=
  String.mk (List.replicate (targetLength - s.length) c) ++ s

/-- The template literal of extract.js:177: `String(itemNumber)` is the decimal
form of the number. -/
def oshigataStoragePath (volume : Volume) (itemNumber : Nat) : String :=
  "vol" ++ toString volume.number ++ "/item_" ++ padStart (toString itemNumber) 3 '0'
    ++ "_oshigata.jpg"

/-- The template literal of extract.js:178. -/
def setsumeiStoragePath (volume : Volume) (itemNumber : Nat) : String :=
  "vol" ++ toString volume.number ++ "/item_" ++ padStart (toString itemNumber) 3 '0'
    ++ "_setsumei.jpg"

/-- The object literal passed to `insert` in `createDatabaseRecord` (extract.js:98-105). -/
def createDatabaseRecord (volume itemNumber : Nat) (oshigataUrl setsumeiUrl : String)
    (pdfPageOshigata pdfPageSetsumei : Nat) : Record :=
  { volume := volume
    item_number := itemNumber
    oshigata_url := oshigataUrl
    setsumei_url := setsumeiUrl
    pdf_page_oshigata := pdfPageOshigata
    pdf_page_setsumei := pdfPageSetsumei }

/-- The `try`/`catch` block of extract.js:180-197 for the pair starting at index `i`:
the two uploads and the insert are awaited in order, the first failure throws into the
`catch`, which logs and leaves `itemNumber` alone; `itemNumber++` runs only after the
insert succeeded.  Returns the events and the new value of `itemNumber`. -/
def uploadAndInsert (env : Env) (volume : Volume) (i itemNumber : Nat)
    (oshigataPath setsumeiPath oshigataPdfPage setsumeiPdfPage : Nat) : List Event × Nat :=
  let oshigataStoragePath := oshigataStoragePath volume itemNumber
  let setsumeiStoragePath := setsumeiStoragePath volume itemNumber
  if env.ok i Call.uploadOshigata then
    if env.ok i Call.uploadSetsumei then
      let row := createDatabaseRecord volume.number itemNumber
        (env.publicUrl oshigataStoragePath) (env.publicUrl setsumeiStoragePath)
        oshigataPdfPage setsumeiPdfPage
      if env.ok i Call.insert then
        ([Event.upload oshigataPath oshigataStoragePath true,
          Event.upload setsumeiPath setsumeiStoragePath true,
          Event.insert row true], itemNumber + 1)
      else
        ([Event.upload oshigataPath oshigataStoragePath true,
          Event.upload setsumeiPath setsumeiStoragePath true,
          Event.insert row false,
          Event.error itemNumber], itemNumber)
    else
      ([Event.upload oshigataPath oshigataStoragePath true,
        Event.upload setsumeiPath setsumeiStoragePath false,
        Event.error itemNumber], itemNumber)
  else
    ([Event.upload oshigataPath oshigataStoragePath false,
      Event.error itemNumber], itemNumber)

/-- One iteration of the `for` loop of extract.js:144-198 past the `break` test, for
the pages `page1 = files[i]` and `page2 = files[i + 1]`. -/
def processPair (env : Env) (volume : Volume) (i itemNumber page1 page2 : Nat) :
    List Event × Nat :=
  let page1Type := classifyPage page1
  let page2Type := classifyPage page2
  if page1Type = PageType.oshigata ∧ page2Type = PageType.setsumei then
    uploadAndInsert env volume i itemNumber i (i + 1)
      (volume.contentStart + i) (volume.contentStart + i + 1)
  else if page1Type = PageType.setsumei ∧ page2Type = PageType.oshigata then
    uploadAndInsert env volume i itemNumber (i + 1) i
      (volume.contentStart + i + 1) (volume.contentStart + i)
  else
    ([Event.warn itemNumber], itemNumber)

/-- The `for` loop of extract.js:144-198.  The third argument is `files.slice(i)`:
the loop stops when it is empty (`i < totalPages` fails) or a singleton
(`i + 1 >= totalPages`, the `break`), and otherwise handles `files[i]`, `files[i+1]`
and continues with `i + 2`. -/
def pairLoop (env : Env) (volume : Volume) : Nat → Nat → List Nat → List Event × Nat
  | _, itemNumber, [] => ([], itemNumber)
  | _, itemNumber, [_] => ([], itemNumber)
  | i, itemNumber, page1 :: page2 :: rest =>
    let step := processPair env volume i itemNumber page1 page2
    let tail := pairLoop env volume (i + 2) step.2 rest
    (step.1 ++ tail.1, tail.2)

/-- Embedding of `processVolume` (extract.js:118-201) from the directory listing on:
`files` is the sorted list of extracted pages.  Returns the trace of events and the
count printed by the last line, `itemNumber - 1`. -/
def processVolume (env : Env) (volume : Volume) (files : List Nat) : List Event × Nat :=
  let out := pairLoop env volume 0 1 files
  (out.1, out.2 - 1)

/-- The row of a successful insert. -/
def Event.createdRow : Event → Option Record
  | Event.insert row true => some row
  | _ => none

/-- The rows of the successful inserts of a trace, in order: the records created. -/
def created (trace : List Event) : List Record :=
  trace.filterMap Event.createdRow

/-- Whether the three external calls for the pair starting at index `i` all succeed. -/
def allOk (env : Env) (i : Nat) : Bool :=
  env.ok i Call.uploadOshigata && env.ok i Call.uploadSetsumei && env.ok i Call.insert

/-- The first entry of `VOLUMES` (extract.js:22-27). -/
def volumeOne : Volume := { number := 1, contentStart := 5, contentEnd := 66 }

/-- An environment in which every upload and insert succeeds. -/
def allSucceed : Env :=
  { ok := fun _ _ => true
    publicUrl := fun storagePath => "https://store.example/nihonto-images/" ++ storagePath }

/-- Five pages of sizes 200, 50, 60, 210 and 100 KB, in bytes. -/
def scenarioPages : List Nat := [200 * 1024, 50 * 1024, 60 * 1024, 210 * 1024, 100 * 1024]

/-- Two pages of 200 and 210 KB (both labelled oshigata) followed by a pair of 200 and
50 KB. -/
def ambiguousThenClear : List Nat := [200 * 1024, 210 * 1024, 200 * 1024, 50 * 1024]

/-- The page numbers of `row` are those of the two pages starting at index `j`. -/
def pagesAt (volume : Volume) (row : Record) (j : Nat) : Prop :=
  (row.pdf_page_oshigata = volume.contentStart + j ∧
      row.pdf_page_setsumei = volume.contentStart + j + 1) ∨
    (row.pdf_page_oshigata = volume.contentStart + j + 1 ∧
      row.pdf_page_setsumei = volume.contentStart + j)

/-- Whether an event is a call of `uploadImage`. -/
def Event.isUpload : Event → Bool
  | Event.upload _ _ _ => true
  | _ => false

/-- Whether an event is the error message of the `catch` block. -/
def Event.isError : Event → Bool
  | Event.error _ => true
  | _ => false

/-- An environment in which only the insert of the first pair fails. -/
def firstInsertFails : Env :=
  { ok := fun i c => !(i == 0 && c == Call.insert)
    publicUrl := fun storagePath => "https://store.example/nihonto-images/" ++ storagePath }

/-- Two pairs of a 200 KB page followed by a 50 KB page. -/
def twoClearPairs : List Nat := [200 * 1024, 50 * 1024, 200 * 1024, 50 * 1024]


/-! ## `src/translate.js` -/

/-- A row of `nihonto_items` as `processItem` reads it.  The `id` is kept in the form
the template literal of translate.js:222 renders it. -/
structure Item where
  id : String
  volume : Nat
  item_number : Nat
  setsumei_url : String
  setsumei_japanese : Option String
  setsumei_english : Option String
  translated_at : Option String
  deriving DecidableEq, Repr

/-- The object passed to `update` (translate.js:242-246), with the `id` of `.eq`. -/
structure UpdateCall where
  id : String
  setsumei_japanese : String
  setsumei_english : String
  translated_at : String
  deriving DecidableEq, Repr

/-- Outcome of one request to the completion service (`fetch(OPENROUTER_API, ..)` and
the reading of its body): the call throws (network error, malformed body), or answers
with a status that is not ok and a body text, or answers with the message content. -/
inductive ChatResponse where
  | threw (message : String)
  | notOk (body : String)
  | ok (content : String)
  deriving DecidableEq, Repr

/-- The external services seen by one run of `processItem`.  `fetchImage url` is
`fetch(url)` followed by `arrayBuffer()`; `textDetection bytes` is the OCR service on the
contents of the local file, returning `result.textAnnotations` as the list of the
`description` fields (or `none` when absent); `correction rawOCR imageUrl` and
`translation correctedOCR` are the two completion requests; `update call` is the
repository update, returning its `error` if any; `now` is `new Date().toISOString()`.
`writeFile path bytes` and `unlink path` give the message of the error thrown by
`fs.writeFileSync` (translate.js:227) and `fs.unlinkSync` (translate.js:252), if any:
both calls are inside the `try` block. -/
structure Services where
  fetchImage : String → Except String (List Nat)
  writeFile : String → List Nat → Option String
  textDetection : Option (List Nat) → Except String (Option (List String))
  correction : String → String → ChatResponse
  translation : String → ChatResponse
  update : UpdateCall → Option String
  unlink : String → Option String
  now : String

/-- The local file system and the catalog repository around one run of `processItem`,
with the log of the update calls issued. -/
structure World where
  files : String → Option (List Nat)
  rows : List Item
  updates : List UpdateCall

/-- Effect of a call `fs.writeFileSync(path, bytes)` that returns. -/
def World.writeFileSync (w : World) (path : String) (bytes : List Nat) : World :=
  { w with files := fun p => if p = path then some bytes else w.files p }

/-- Effect of a call `fs.unlinkSync(path)` that returns. -/
def World.unlinkSync (w : World) (path : String) : World :=
  { w with files := fun p => if p = path then none else w.files p }

/-- An update call issued to the repository: it is logged, and when the repository
reports no error the row with the given `id` receives the three fields. -/
def World.issueUpdate (w : World) (call : UpdateCall) (error : Option String) : World :=
  { w with
    updates := w.updates ++ [call]
    rows := match error with
      | some _ => w.rows
      | none => w.rows.map (fun r =>
          if r.id = call.id then
            { r with
              setsumei_japanese := some call.setsumei_japanese
              setsumei_english := some call.setsumei_english
              translated_at := some call.translated_at }
          else r) }

/-- Embedding of `extractOCR` (translate.js:36-51): fails on a rejected request and on
absent or empty `textAnnotations`, otherwise returns the first description. -/
def extractOCR (svc : Services) (w : World) (imagePath : String) : Except String String :=
  match svc.textDetection (w.files imagePath) with
  | Except.error message => Except.error message
  | Except.ok none => Except.error "No text detected in image"
  | Except.ok (some []) => Except.error "No text detected in image"
  | Except.ok (some (fullText :: _)) => Except.ok fullText

/-- Embedding of `correctOCR` (translate.js:56-121). -/
def correctOCR (svc : Services) (rawOCR imageUrl : String) : Except String String :=
  match svc.correction rawOCR imageUrl with
  | ChatResponse.threw message => Except.error message
  | ChatResponse.notOk body => Except.error ("OpenRouter API error: " ++ body)
  | ChatResponse.ok correctedOCR => Except.ok correctedOCR

/-- Embedding of `translateToMarkdown` (translate.js:126-209). -/
def translateToMarkdown (svc : Services) (correctedOCR : String) : Except String String :=
  match svc.translation correctedOCR with
  | ChatResponse.threw message => Except.error message
  | ChatResponse.notOk body => Except.error ("OpenRouter API error: " ++ body)
  | ChatResponse.ok markdown => Except.ok markdown

/-- The object returned by `processItem` (translate.js:256-261 and 266-272). -/
structure Result where
  success : Bool
  item_id : String
  volume : Nat
  item_number : Nat
  error : Option String
  deriving DecidableEq, Repr

/-- The value returned from the `catch` block (translate.js:266-272). -/
def failureResult (item : Item) (message : String) : Result :=
  { success := false, item_id := item.id, volume := item.volume,
    item_number := item.item_number, error := some message }

/-- The value returned at the end of the `try` block (translate.js:256-261). -/
def successResult (item : Item) : Result :=
  { success := true, item_id := item.id, volume := item.volume,
    item_number := item.item_number, error := none }

/-- Embedding of `processItem` (translate.js:214-274).  Every throwing step, the two
local file operations included, leaves the `try` block for the `catch`, which only
builds the failure result; the world reached at that point is returned with it. -/
def processItem (svc : Services) (w : World) (item : Item) : Result × World :=
  let imageUrl := item.setsumei_url
  let imagePath := "/tmp/setsumei_" ++ item.id ++ ".jpg"
  match svc.fetchImage imageUrl with
  | Except.error message => (failureResult item message, w)
  | Except.ok imageBuffer =>
    match svc.writeFile imagePath imageBuffer with
    | some message => (failureResult item message, w)
    | none =>
      let w1 := w.writeFileSync imagePath imageBuffer
      match extractOCR svc w1 imagePath with
      | Except.error message => (failureResult item message, w1)
      | Except.ok rawOCR =>
        match correctOCR svc rawOCR imageUrl with
        | Except.error message => (failureResult item message, w1)
        | Except.ok correctedOCR =>
          match translateToMarkdown svc correctedOCR with
          | Except.error message => (failureResult item message, w1)
          | Except.ok englishMarkdown =>
            let call : UpdateCall :=
              { id := item.id
                setsumei_japanese := correctedOCR
                setsumei_english := englishMarkdown
                translated_at := svc.now }
            let w2 := w1.issueUpdate call (svc.update call)
            match svc.update call with
            | some message => (failureResult item message, w2)
            | none =>
              match svc.unlink imagePath with
              | some message => (failureResult item message, w2)
              | none => (successResult item, w2.unlinkSync imagePath)

/-- The local path of the fetched image (translate.js:222). -/
def imagePathOf (item : Item) : String := "/tmp/setsumei_" ++ item.id ++ ".jpg"

/-- The update call `processItem` issues for `item` once it holds the corrected text and
the translation (translate.js:240-247). -/
def updateCallOf (svc : Services) (item : Item) (correctedOCR englishMarkdown : String) :
    UpdateCall :=
  { id := item.id
    setsumei_japanese := correctedOCR
    setsumei_english := englishMarkdown
    translated_at := svc.now }

/-- The image fetch, the write of the local copy, the OCR step, the correction step or
the translation step fails with `message`, the steps before it having succeeded. -/
def failsBeforeUpdate (svc : Services) (w : World) (item : Item) (message : String) : Prop :=
  svc.fetchImage item.setsumei_url = Except.error message ∨
  (∃ imageBuffer, svc.fetchImage item.setsumei_url = Except.ok imageBuffer ∧
    svc.writeFile (imagePathOf item) imageBuffer = some message) ∨
  (∃ imageBuffer, svc.fetchImage item.setsumei_url = Except.ok imageBuffer ∧
    svc.writeFile (imagePathOf item) imageBuffer = none ∧
    extractOCR svc (w.writeFileSync (imagePathOf item) imageBuffer) (imagePathOf item) =
      Except.error message) ∨
  (∃ imageBuffer rawOCR, svc.fetchImage item.setsumei_url = Except.ok imageBuffer ∧
    svc.writeFile (imagePathOf item) imageBuffer = none ∧
    extractOCR svc (w.writeFileSync (imagePathOf item) imageBuffer) (imagePathOf item) =
      Except.ok rawOCR ∧
    correctOCR svc rawOCR item.setsumei_url = Except.error message) ∨
  (∃ imageBuffer rawOCR correctedOCR,
    svc.fetchImage item.setsumei_url = Except.ok imageBuffer ∧
    svc.writeFile (imagePathOf item) imageBuffer = none ∧
    extractOCR svc (w.writeFileSync (imagePathOf item) imageBuffer) (imagePathOf item) =
      Except.ok rawOCR ∧
    correctOCR svc rawOCR item.setsumei_url = Except.ok correctedOCR ∧
    translateToMarkdown svc correctedOCR = Except.error message)

/-- Fetch, write of the local copy, OCR, correction and translation all succeed, with
the given results. -/
def pipelineSucceeds (svc : Services) (w : World) (item : Item)
    (correctedOCR englishMarkdown : String) : Prop :=
  ∃ imageBuffer rawOCR, svc.fetchImage item.setsumei_url = Except.ok imageBuffer ∧
    svc.writeFile (imagePathOf item) imageBuffer = none ∧
    extractOCR svc (w.writeFileSync (imagePathOf item) imageBuffer) (imagePathOf item) =
      Except.ok rawOCR ∧
    correctOCR svc rawOCR item.setsumei_url = Except.ok correctedOCR ∧
    translateToMarkdown svc correctedOCR = Except.ok englishMarkdown

/-- Some step of `processItem` fails with `message`: one of the steps before the
update, or the database update after they succeeded, or the removal of the local copy
after the update succeeded. -/
def stepFails (svc : Services) (w : World) (item : Item) (message : String) : Prop :=
  failsBeforeUpdate svc w item message ∨
  (∃ correctedOCR englishMarkdown, pipelineSucceeds svc w item correctedOCR englishMarkdown ∧
    svc.update (updateCallOf svc item correctedOCR englishMarkdown) = some message) ∨
  (∃ correctedOCR englishMarkdown, pipelineSucceeds svc w item correctedOCR englishMarkdown ∧
    svc.update (updateCallOf svc item correctedOCR englishMarkdown) = none ∧
    svc.unlink (imagePathOf item) = some message)

/-- Every step of `processItem` succeeds: fetch, write of the local copy, OCR,
correction, translation, database update and removal of the local copy. -/
def allStepsSucceed (svc : Services) (w : World) (item : Item) : Prop :=
  ∃ correctedOCR englishMarkdown, pipelineSucceeds svc w item correctedOCR englishMarkdown ∧
    svc.update (updateCallOf svc item correctedOCR englishMarkdown) = none ∧
    svc.unlink (imagePathOf item) = none

/-- An untranslated item with id `a1`. -/
def sampleItem : Item :=
  { id := "a1", volume := 1, item_number := 1
    setsumei_url := "https://store.example/nihonto-images/vol1/item_001_setsumei.jpg"
    setsumei_japanese := none, setsumei_english := none, translated_at := none }

/-- No local files, the repository holding `sampleItem`, no update issued yet. -/
def initialWorld : World :=
  { files := fun _ => none, rows := [sampleItem], updates := [] }

/-- Services in which every step succeeds. -/
def workingServices : Services :=
  { fetchImage := fun _ => Except.ok [255, 216, 255]
    writeFile := fun _ _ => none
    textDetection := fun _ => Except.ok (some ["raw text"])
    correction := fun _ _ => ChatResponse.ok "corrected text"
    translation := fun _ => ChatResponse.ok "# Katana"
    update := fun _ => none
    unlink := fun _ => none
    now := "2024-01-01T00:00:00.000Z" }

/-- Services whose OCR detects no text in the image. -/
def noTextServices : Services :=
  { fetchImage := fun _ => Except.ok [255, 216, 255]
    writeFile := fun _ _ => none
    textDetection := fun _ => Except.ok (some [])
    correction := fun _ _ => ChatResponse.ok "corrected text"
    translation := fun _ => ChatResponse.ok "# Katana"
    update := fun _ => none
    unlink := fun _ => none
    now := "2024-01-01T00:00:00.000Z" }

/-- An untranslated item whose id contains a slash, so that its local path
`/tmp/setsumei_x/y.jpg` lies in a directory that does not exist. -/
def slashItem : Item :=
  { id := "x/y", volume := 1, item_number := 1
    setsumei_url := "https://store.example/nihonto-images/vol1/item_001_setsumei.jpg"
    setsumei_japanese := none, setsumei_english := none, translated_at := none }

/-- Services in which fetch, OCR, correction, translation and update succeed on every
argument, while writing below the missing directory `/tmp/setsumei_x` throws. -/
def missingDirectoryServices : Services :=
  { fetchImage := fun _ => Except.ok [255, 216, 255]
    writeFile := fun path _ =>
      if path = "/tmp/setsumei_x/y.jpg" then
        some "ENOENT: no such file or directory, open /tmp/setsumei_x/y.jpg"
      else none
    textDetection := fun _ => Except.ok (some ["raw text"])
    correction := fun _ _ => ChatResponse.ok "corrected text"
    translation := fun _ => ChatResponse.ok "# Katana"
    update := fun _ => none
    unlink := fun _ => none
    now := "2024-01-01T00:00:00.000Z" }

/-- The `for` loop of `main` (translate.js:312-319) over the items returned by the
query: `processItem` is awaited for each item in turn and its result pushed to
`results`.  `svc k` is the behaviour of the external services during the processing of
the item at position `k`, so that every combination of per-item outcomes is covered. -/
def processItems (svc : Nat → Services) : Nat → World → List Item → List Result × World
  | _, w, [] => ([], w)
  | k, w, item :: rest =>
    let out := processItem (svc k) w item
    let tail := processItems svc (k + 1) out.2 rest
    (out.1 :: tail.1, tail.2)

/-- The tally printed by `main` (translate.js:326-331). -/
structure Summary where
  successful : Nat
  failed : Nat
  total : Nat
  deriving DecidableEq, Repr

/-- Embedding of `main` of translate.js from the query result on (translate.js:304-331):
`none` is the early return on an empty list, otherwise the results of the loop and the
summary computed from them. -/
def translateMain (svc : Nat → Services) (w : World) (items : List Item) :
    Option (List Result × Summary) :=
  if items.length = 0 then none
  else
    let results := (processItems svc 0 w items).1
    let successful := (results.filter (fun r => r.success)).length
    let failed := (results.filter (fun r => !r.success)).length
    some (results, { successful := successful, failed := failed, total := results.length })

/-- Services for three items of which the second fails at OCR. -/
def secondFailsAtOCR : Nat → Services :=
  fun k => if k = 1 then noTextServices else workingServices

/-- Three untranslated items. -/
def threeItems : List Item :=
  [sampleItem, { sampleItem with id := "a2", item_number := 2 },
    { sampleItem with id := "a3", item_number := 3 }]

/-- The local image passed to `uploadImage`, for an upload event. -/
def Event.uploadedImage : Event → Option Nat
  | Event.upload imagePath _ _ => some imagePath
  | _ => none

/-- The local images passed to `uploadImage` during a run, in call order. -/
def uploadedImages (trace : List Event) : List Nat :=
  trace.filterMap Event.uploadedImage

/-- An environment in which every upload fails. -/
def allUploadsFail : Env :=
  { ok := fun _ c => decide (c = Call.insert)
    publicUrl := fun storagePath => "https://store.example/nihonto-images/" ++ storagePath }

/-- Reads a list of decimal digit characters back as a number. -/
def decodeDecimal (cs : List Char) : Nat :=
  cs.foldl (fun a c => a * 10 + (c.toNat - 48)) 0

/-- The asset store as a map from storage path to the image it holds; an image is named
by the index of the local file whose bytes were uploaded. -/
abbrev Store := String → Option Nat

/-- Effect of one event on the asset store: an upload that succeeds overwrites its path
(`upsert: true`, extract.js:72-75), anything else leaves the store unchanged. -/
def Event.applyToStore (store : Store) : Event → Store
  | Event.upload imagePath storagePath true =>
    fun p => if p = storagePath then some imagePath else store p
  | _ => store

/-- The asset store after the events of a trace, starting from `store`. -/
def storeAfter (store : Store) (trace : List Event) : Store :=
  trace.foldl Event.applyToStore store

/-- An environment in which the insert of the first pair and the second upload of the
second pair fail. -/
def twoFailuresThenSuccess : Env :=
  { ok := fun i c => !((i == 0 && c == Call.insert) || (i == 2 && c == Call.uploadSetsumei))
    publicUrl := fun storagePath => "https://store.example/nihonto-images/" ++ storagePath }

/-- Three pairs: oshigata first, setsumei first, oshigata first. -/
def threeClearPairs : List Nat :=
  [200 * 1024, 50 * 1024, 60 * 1024, 210 * 1024, 220 * 1024, 70 * 1024]

/-- What the store holds for a created row: at the two paths of the row's item number
the two pages whose page numbers the row carries, which are the two pages of one pair,
and the row's URLs are those of these two paths. -/
def rowStored (env : Env) (volume : Volume) (store : Store) (row : Record) : Prop :=
  ∃ o s, store (oshigataStoragePath volume row.item_number) = some o ∧
    store (setsumeiStoragePath volume row.item_number) = some s ∧
    row.pdf_page_oshigata = volume.contentStart + o ∧
    row.pdf_page_setsumei = volume.contentStart + s ∧
    (s = o + 1 ∨ o = s + 1) ∧
    row.oshigata_url = env.publicUrl (oshigataStoragePath volume row.item_number) ∧
    row.setsumei_url = env.publicUrl (setsumeiStoragePath volume row.item_number)

/-- The row inserted for the third pair of `threeClearPairs` under item number 1. -/
def thirdPairRow : Record :=
  createDatabaseRecord 1 1
    (twoFailuresThenSuccess.publicUrl (oshigataStoragePath volumeOne 1))
    (twoFailuresThenSuccess.publicUrl (setsumeiStoragePath volumeOne 1)) 9 10

/-! ## Properties of `src/extract.js` -/

/-! ### Basic facts about `classifyPage` -/

theorem fileSizeKB_gt_iff (size : Nat) : fileSizeKB size > 150 ↔ size > 153600 := by
  unfold fileSizeKB
  rw [gt_iff_lt, lt_div_iff₀ (by norm_num : (0 : ℚ) < 1024)]
  constructor
  · intro h
    have h2 : ((153600 : ℕ) : ℚ) < (size : ℚ) := by push_cast; linarith
    exact_mod_cast h2
  · intro h
    have h2 : ((153600 : ℕ) : ℚ) < (size : ℚ) := by exact_mod_cast h
    push_cast at h2; linarith

theorem classifyPage_eq (size : Nat) :
    classifyPage size = if 153600 < size then PageType.oshigata else PageType.setsumei := by
  unfold classifyPage
  by_cases h : 153600 < size
  · rw [if_pos ((fileSizeKB_gt_iff size).2 h), if_pos h]
  · rw [if_neg (fun h2 => h ((fileSizeKB_gt_iff size).1 h2)), if_neg h]

/-- C1: `classifyPage` returns `oshigata` exactly when `size / 1024 > 150`, that is
when `size > 153600`, and `setsumei` otherwise; a file of exactly 150 KB is `setsumei`. -/
theorem classifyPage_threshold (s : Nat) :
    (classifyPage s = PageType.oshigata ↔ fileSizeKB s > 150) ∧
    (fileSizeKB s > 150 ↔ s > 153600) ∧
    (classifyPage s = PageType.setsumei ↔ ¬ s > 153600) ∧
    classifyPage 153600 = PageType.setsumei := by
  refine ⟨?_, fileSizeKB_gt_iff s, ?_, ?_⟩
  · unfold classifyPage
    by_cases h : fileSizeKB s > 150 <;> simp [h]
  · rw [classifyPage_eq]
    by_cases h : 153600 < s <;> simp [h]
  · rw [classifyPage_eq]; simp

/-! ### The pairing loop -/

theorem pair_induction {P : List Nat → Prop} (h0 : P []) (h1 : ∀ a, P [a])
    (h2 : ∀ a b rest, P rest → P (a :: b :: rest)) : ∀ l, P l
  | [] => h0
  | [a] => h1 a
  | a :: b :: rest => h2 a b rest (pair_induction h0 h1 h2 rest)

theorem created_append (a b : List Event) : created (a ++ b) = created a ++ created b := by
  simp [created, List.filterMap_append]

theorem pairLoop_cons_cons (env : Env) (volume : Volume) (i n p1 p2 : Nat) (rest : List Nat) :
    pairLoop env volume i n (p1 :: p2 :: rest) =
      ((processPair env volume i n p1 p2).1 ++
          (pairLoop env volume (i + 2) (processPair env volume i n p1 p2).2 rest).1,
        (pairLoop env volume (i + 2) (processPair env volume i n p1 p2).2 rest).2) := rfl

theorem processPair_same (env : Env) (volume : Volume) (i n p1 p2 : Nat)
    (h : classifyPage p1 = classifyPage p2) :
    processPair env volume i n p1 p2 = ([Event.warn n], n) := by
  unfold processPair
  cases h1 : classifyPage p1 <;> cases h2 : classifyPage p2 <;> simp_all

theorem processPair_oshigata_first (env : Env) (volume : Volume) (i n p1 p2 : Nat)
    (h1 : classifyPage p1 = PageType.oshigata) (h2 : classifyPage p2 = PageType.setsumei) :
    processPair env volume i n p1 p2 =
      uploadAndInsert env volume i n i (i + 1)
        (volume.contentStart + i) (volume.contentStart + i + 1) := by
  unfold processPair; simp [h1, h2]

theorem processPair_setsumei_first (env : Env) (volume : Volume) (i n p1 p2 : Nat)
    (h1 : classifyPage p1 = PageType.setsumei) (h2 : classifyPage p2 = PageType.oshigata) :
    processPair env volume i n p1 p2 =
      uploadAndInsert env volume i n (i + 1) i
        (volume.contentStart + i + 1) (volume.contentStart + i) := by
  unfold processPair; simp [h1, h2]

theorem uploadAndInsert_created (env : Env) (volume : Volume) (i n o s po ps : Nat) :
    created (uploadAndInsert env volume i n o s po ps).1 =
      (if allOk env i then
        [createDatabaseRecord volume.number n (env.publicUrl (oshigataStoragePath volume n))
          (env.publicUrl (setsumeiStoragePath volume n)) po ps]
      else []) ∧
    (uploadAndInsert env volume i n o s po ps).2 = if allOk env i then n + 1 else n := by
  unfold uploadAndInsert allOk
  cases env.ok i Call.uploadOshigata <;> cases env.ok i Call.uploadSetsumei <;>
    cases env.ok i Call.insert <;> simp [created, Event.createdRow]

/-- Every pair contributes at most one created record, numbered with the current
`itemNumber`, and advances the counter by the number of records it created. -/
theorem processPair_created (env : Env) (volume : Volume) (i n p1 p2 : Nat) :
    (created (processPair env volume i n p1 p2).1).map Record.item_number =
        List.range' n (created (processPair env volume i n p1 p2).1).length ∧
      (processPair env volume i n p1 p2).2 =
        n + (created (processPair env volume i n p1 p2).1).length := by
  cases h1 : classifyPage p1 <;> cases h2 : classifyPage p2
  · rw [processPair_same env volume i n p1 p2 (by rw [h1, h2])]
    simp [created, Event.createdRow]
  · rw [processPair_oshigata_first env volume i n p1 p2 h1 h2]
    obtain ⟨hc, hn⟩ := uploadAndInsert_created env volume i n i (i + 1)
      (volume.contentStart + i) (volume.contentStart + i + 1)
    rw [hc, hn]
    cases allOk env i <;> simp [createDatabaseRecord]
  · rw [processPair_setsumei_first env volume i n p1 p2 h1 h2]
    obtain ⟨hc, hn⟩ := uploadAndInsert_created env volume i n (i + 1) i
      (volume.contentStart + i + 1) (volume.contentStart + i)
    rw [hc, hn]
    cases allOk env i <;> simp [createDatabaseRecord]
  · rw [processPair_same env volume i n p1 p2 (by rw [h1, h2])]
    simp [created, Event.createdRow]

theorem pairLoop_created (env : Env) (volume : Volume) (files : List Nat) :
    ∀ i n, (created (pairLoop env volume i n files).1).map Record.item_number =
        List.range' n (created (pairLoop env volume i n files).1).length ∧
      (pairLoop env volume i n files).2 =
        n + (created (pairLoop env volume i n files).1).length := by
  induction files using pair_induction with
  | h0 => intro i n; simp [pairLoop, created]
  | h1 a => intro i n; simp [pairLoop, created]
  | h2 p1 p2 rest ih =>
    intro i n
    obtain ⟨hp, hn⟩ := processPair_created env volume i n p1 p2
    obtain ⟨hl, hm⟩ := ih (i + 2) (processPair env volume i n p1 p2).2
    rw [pairLoop_cons_cons]
    simp only [created_append, List.map_append, List.length_append]
    rw [hp, hl, hm]
    constructor
    · rw [hn, List.range'_append_1, Nat.add_comm]
    · rw [hn]; omega

theorem pairLoop_append_single (env : Env) (volume : Volume) (p : Nat) (P : List Nat) :
    Even P.length → ∀ i n, pairLoop env volume i n (P ++ [p]) = pairLoop env volume i n P := by
  induction P using pair_induction with
  | h0 => intro _ i n; rfl
  | h1 a => intro h; simp at h
  | h2 a b rest ih =>
    intro h i n
    have h2 : Even rest.length := by
      simpa [Nat.even_add_one] using h
    simp only [List.cons_append, pairLoop_cons_cons]
    rw [ih h2]

theorem getElem?_cons_cons_even (a b : Nat) (rest : List Nat) (k : Nat) :
    (a :: b :: rest)[2 * (k + 1)]? = rest[2 * k]? ∧
      (a :: b :: rest)[2 * (k + 1) + 1]? = rest[2 * k + 1]? := by
  have h1 : 2 * (k + 1) = 2 * k + 1 + 1 := by omega
  have h2 : 2 * (k + 1) + 1 = 2 * k + 1 + 1 + 1 := by omega
  rw [h1]
  simp

/-- Every event of the loop belongs to the events of one pair `files[2k], files[2k+1]`,
all of whose events are in the trace. -/
theorem mem_pairLoop (env : Env) (volume : Volume) (files : List Nat) :
    ∀ i n e, e ∈ (pairLoop env volume i n files).1 →
      ∃ k m p1 p2, files[2 * k]? = some p1 ∧ files[2 * k + 1]? = some p2 ∧
        e ∈ (processPair env volume (i + 2 * k) m p1 p2).1 ∧
        ∀ e2 ∈ (processPair env volume (i + 2 * k) m p1 p2).1,
          e2 ∈ (pairLoop env volume i n files).1 := by
  induction files using pair_induction with
  | h0 => intro i n e h; simp [pairLoop] at h
  | h1 a => intro i n e h; simp [pairLoop] at h
  | h2 a b rest ih =>
    intro i n e h
    rw [pairLoop_cons_cons] at h
    rcases List.mem_append.1 h with h | h
    · refine ⟨0, n, a, b, by simp, by simp, by simpa using h, ?_⟩
      intro e2 h2
      rw [pairLoop_cons_cons]
      exact List.mem_append.2 (Or.inl (by simpa using h2))
    · obtain ⟨k, m, p1, p2, hk1, hk2, he, hsub⟩ := ih _ _ e h
      obtain ⟨g1, g2⟩ := getElem?_cons_cons_even a b rest k
      have hi : i + 2 * (k + 1) = i + 2 + 2 * k := by omega
      refine ⟨k + 1, m, p1, p2, by rw [g1]; exact hk1, by rw [g2]; exact hk2, ?_, ?_⟩
      · rw [hi]; exact he
      · intro e2 h2
        rw [hi] at h2
        rw [pairLoop_cons_cons]
        exact List.mem_append.2 (Or.inr (hsub e2 h2))

/-- The events of every full pair `files[2k], files[2k+1]` occur, as one block, in the
trace of the loop. -/
theorem processPair_block (env : Env) (volume : Volume) (files : List Nat) :
    ∀ i n k p1 p2, files[2 * k]? = some p1 → files[2 * k + 1]? = some p2 →
      ∃ m pre post, (pairLoop env volume i n files).1 =
        pre ++ (processPair env volume (i + 2 * k) m p1 p2).1 ++ post := by
  induction files using pair_induction with
  | h0 => intro i n k p1 p2 h; simp at h
  | h1 a => intro i n k p1 p2 _ h; simp at h
  | h2 a b rest ih =>
    intro i n k p1 p2 hk1 hk2
    cases k with
    | zero =>
      simp at hk1 hk2
      subst hk1; subst hk2
      exact ⟨n, [], (pairLoop env volume (i + 2) (processPair env volume i n a b).2 rest).1,
        by rw [pairLoop_cons_cons]; simp⟩
    | succ k =>
      obtain ⟨g1, g2⟩ := getElem?_cons_cons_even a b rest k
      rw [g1] at hk1; rw [g2] at hk2
      obtain ⟨m, pre, post, h⟩ := ih (i + 2) (processPair env volume i n a b).2 k p1 p2 hk1 hk2
      have hi : i + 2 * (k + 1) = i + 2 + 2 * k := by omega
      refine ⟨m, (processPair env volume i n a b).1 ++ pre, post, ?_⟩
      rw [pairLoop_cons_cons, hi]
      simp only [h, List.append_assoc]

theorem mem_created {trace : List Event} {row : Record} :
    row ∈ created trace ↔ Event.insert row true ∈ trace := by
  unfold created
  rw [List.mem_filterMap]
  constructor
  · rintro ⟨e, he, hr⟩
    cases e with
    | insert r ok =>
      cases ok with
      | true => simp [Event.createdRow] at hr; subst hr; exact he
      | false => simp [Event.createdRow] at hr
    | upload _ _ _ => simp [Event.createdRow] at hr
    | warn _ => simp [Event.createdRow] at hr
    | error _ => simp [Event.createdRow] at hr
  · intro h
    exact ⟨_, h, rfl⟩

/-- The events of the `try` block: uploads of the two chosen pages to the paths of the
current item number, the insert of the row built from them (made only after both
uploads succeeded), and the error message. -/
theorem mem_uploadAndInsert {env : Env} {volume : Volume} {i m o s po ps : Nat} {e : Event}
    (h : e ∈ (uploadAndInsert env volume i m o s po ps).1) :
    (∃ ok, e = Event.upload o (oshigataStoragePath volume m) ok) ∨
    (∃ ok, e = Event.upload s (setsumeiStoragePath volume m) ok) ∨
    (∃ ok, e = Event.insert (createDatabaseRecord volume.number m
        (env.publicUrl (oshigataStoragePath volume m))
        (env.publicUrl (setsumeiStoragePath volume m)) po ps) ok ∧
      Event.upload o (oshigataStoragePath volume m) true ∈
        (uploadAndInsert env volume i m o s po ps).1 ∧
      Event.upload s (setsumeiStoragePath volume m) true ∈
        (uploadAndInsert env volume i m o s po ps).1) ∨
    e = Event.error m := by
  revert h e
  unfold uploadAndInsert
  cases h1 : env.ok i Call.uploadOshigata <;> cases h2 : env.ok i Call.uploadSetsumei <;>
    cases h3 : env.ok i Call.insert <;> simp

theorem mem_processPair {env : Env} {volume : Volume} {i m p1 p2 : Nat} {e : Event}
    (h : e ∈ (processPair env volume i m p1 p2).1) :
    (e = Event.warn m ∧ classifyPage p1 = classifyPage p2) ∨
    (∃ o s, ((o = i ∧ s = i + 1 ∧ classifyPage p1 = PageType.oshigata ∧
          classifyPage p2 = PageType.setsumei) ∨
        (o = i + 1 ∧ s = i ∧ classifyPage p1 = PageType.setsumei ∧
          classifyPage p2 = PageType.oshigata)) ∧
      e ∈ (uploadAndInsert env volume i m o s
        (volume.contentStart + o) (volume.contentStart + s)).1) := by
  cases h1 : classifyPage p1 <;> cases h2 : classifyPage p2
  · rw [processPair_same env volume i m p1 p2 (by rw [h1, h2])] at h
    left; simpa using h
  · rw [processPair_oshigata_first env volume i m p1 p2 h1 h2] at h
    right; exact ⟨i, i + 1, Or.inl ⟨rfl, rfl, rfl, rfl⟩, h⟩
  · rw [processPair_setsumei_first env volume i m p1 p2 h1 h2] at h
    right; exact ⟨i + 1, i, Or.inr ⟨rfl, rfl, rfl, rfl⟩, h⟩
  · rw [processPair_same env volume i m p1 p2 (by rw [h1, h2])] at h
    left; simpa using h

theorem uploadAndInsert_ok (env : Env) (volume : Volume) (i n o s po ps : Nat)
    (h : allOk env i = true) :
    (uploadAndInsert env volume i n o s po ps).1 =
      [Event.upload o (oshigataStoragePath volume n) true,
       Event.upload s (setsumeiStoragePath volume n) true,
       Event.insert (createDatabaseRecord volume.number n
         (env.publicUrl (oshigataStoragePath volume n))
         (env.publicUrl (setsumeiStoragePath volume n)) po ps) true] := by
  unfold allOk at h
  simp only [Bool.and_eq_true] at h
  obtain ⟨⟨h1, h2⟩, h3⟩ := h
  unfold uploadAndInsert
  simp [h1, h2, h3]

/-- Provenance of an upload: it moves one page of a pair whose two labels differ. -/
theorem upload_provenance {env : Env} {volume : Volume} {files : List Nat} {j : Nat}
    {path : String} {ok : Bool}
    (h : Event.upload j path ok ∈ (processVolume env volume files).1) :
    ∃ k p1 p2, files[2 * k]? = some p1 ∧ files[2 * k + 1]? = some p2 ∧
      classifyPage p1 ≠ classifyPage p2 ∧ (j = 2 * k ∨ j = 2 * k + 1) := by
  obtain ⟨k, m, p1, p2, hk1, hk2, he, -⟩ := mem_pairLoop env volume files 0 1 _ h
  rw [Nat.zero_add] at he
  refine ⟨k, p1, p2, hk1, hk2, ?_⟩
  rcases mem_processPair he with ⟨hw, -⟩ | ⟨o, s, hos, hu⟩
  · cases hw
  · have hne : classifyPage p1 ≠ classifyPage p2 := by
      rcases hos with ⟨-, -, h1, h2⟩ | ⟨-, -, h1, h2⟩ <;> rw [h1, h2] <;> decide
    refine ⟨hne, ?_⟩
    rcases mem_uploadAndInsert hu with ⟨ok2, h2⟩ | ⟨ok2, h2⟩ | ⟨ok2, h2, -⟩ | h2
    · injection h2 with hj
      rcases hos with ⟨ho, -⟩ | ⟨ho, -⟩ <;> omega
    · injection h2 with hj
      rcases hos with ⟨-, hs, -⟩ | ⟨-, hs, -⟩ <;> omega
    · cases h2
    · cases h2

/-- Provenance of an insert (successful or not): the row comes from one pair with two
different labels, its oshigata side is the page labelled `oshigata`, and both pages
were uploaded successfully to the paths of the row's item number before. -/
theorem insert_provenance {env : Env} {volume : Volume} {files : List Nat} {row : Record}
    {ok : Bool} (h : Event.insert row ok ∈ (processVolume env volume files).1) :
    ∃ k p1 p2 o s, files[2 * k]? = some p1 ∧ files[2 * k + 1]? = some p2 ∧
      ((o = 2 * k ∧ s = 2 * k + 1 ∧ classifyPage p1 = PageType.oshigata ∧
          classifyPage p2 = PageType.setsumei) ∨
        (o = 2 * k + 1 ∧ s = 2 * k ∧ classifyPage p1 = PageType.setsumei ∧
          classifyPage p2 = PageType.oshigata)) ∧
      row = createDatabaseRecord volume.number row.item_number
        (env.publicUrl (oshigataStoragePath volume row.item_number))
        (env.publicUrl (setsumeiStoragePath volume row.item_number))
        (volume.contentStart + o) (volume.contentStart + s) ∧
      Event.upload o (oshigataStoragePath volume row.item_number) true ∈
        (processVolume env volume files).1 ∧
      Event.upload s (setsumeiStoragePath volume row.item_number) true ∈
        (processVolume env volume files).1 := by
  obtain ⟨k, m, p1, p2, hk1, hk2, he, hsub⟩ := mem_pairLoop env volume files 0 1 _ h
  rw [Nat.zero_add] at he hsub
  rcases mem_processPair he with ⟨hw, -⟩ | ⟨o, s, hos, hu⟩
  · cases hw
  · have hchunk : (processPair env volume (2 * k) m p1 p2).1 =
        (uploadAndInsert env volume (2 * k) m o s
          (volume.contentStart + o) (volume.contentStart + s)).1 := by
      rcases hos with ⟨ho, hs, h1, h2⟩ | ⟨ho, hs, h1, h2⟩
      · rw [processPair_oshigata_first env volume _ m p1 p2 h1 h2, ho, hs]; rfl
      · rw [processPair_setsumei_first env volume _ m p1 p2 h1 h2, ho, hs]; rfl
    rw [hchunk] at hsub
    refine ⟨k, p1, p2, o, s, hk1, hk2, hos, ?_⟩
    rcases mem_uploadAndInsert hu with ⟨ok2, h2⟩ | ⟨ok2, h2⟩ | ⟨ok2, h2, hu1, hu2⟩ | h2
    · cases h2
    · cases h2
    · injection h2 with hrow hok
      have hm : row.item_number = m := by rw [hrow]; rfl
      rw [hm]
      exact ⟨hrow, hsub _ hu1, hsub _ hu2⟩
    · cases h2

/-- C2: for the pair at indices `2k, 2k+1`, if the two pages get different labels and
the two uploads and the insert succeed, `processVolume` creates a record whose
`pdf_page_oshigata` is `contentStart +` the index of the page labelled oshigata and whose
`pdf_page_setsumei` is `contentStart +` the index of the page labelled setsumei, whichever
position each occupied; the two pages uploaded for that record are those two pages. -/
theorem processVolume_pair_pages (env : Env) (volume : Volume) (files : List Nat)
    (k p1 p2 : Nat) (h1 : files[2 * k]? = some p1) (h2 : files[2 * k + 1]? = some p2)
    (hne : classifyPage p1 ≠ classifyPage p2) (hok : allOk env (2 * k) = true) :
    ∃ row, row ∈ created (processVolume env volume files).1 ∧
      row.pdf_page_oshigata = volume.contentStart +
        (if classifyPage p1 = PageType.oshigata then 2 * k else 2 * k + 1) ∧
      row.pdf_page_setsumei = volume.contentStart +
        (if classifyPage p1 = PageType.oshigata then 2 * k + 1 else 2 * k) ∧
      Event.upload (if classifyPage p1 = PageType.oshigata then 2 * k else 2 * k + 1)
        (oshigataStoragePath volume row.item_number) true ∈
          (processVolume env volume files).1 ∧
      Event.upload (if classifyPage p1 = PageType.oshigata then 2 * k + 1 else 2 * k)
        (setsumeiStoragePath volume row.item_number) true ∈
          (processVolume env volume files).1 := by
  obtain ⟨m, pre, post, hblock⟩ := processPair_block env volume files 0 1 k p1 p2 h1 h2
  rw [Nat.zero_add] at hblock
  have htrace : (processVolume env volume files).1 =
      pre ++ (processPair env volume (2 * k) m p1 p2).1 ++ post := hblock
  cases c1 : classifyPage p1 <;> cases c2 : classifyPage p2
  · exact absurd (c1.trans c2.symm) hne
  · rw [processPair_oshigata_first env volume _ m p1 p2 c1 c2,
      uploadAndInsert_ok env volume _ m _ _ _ _ hok] at htrace
    refine ⟨createDatabaseRecord volume.number m (env.publicUrl (oshigataStoragePath volume m))
      (env.publicUrl (setsumeiStoragePath volume m)) (volume.contentStart + 2 * k)
      (volume.contentStart + 2 * k + 1), mem_created.2 ?_, ?_, ?_, ?_, ?_⟩
    · rw [htrace]; simp
    · simp [createDatabaseRecord]
    · simp [createDatabaseRecord, Nat.add_assoc]
    · rw [htrace]; simp [createDatabaseRecord]
    · rw [htrace]; simp [createDatabaseRecord]
  · rw [processPair_setsumei_first env volume _ m p1 p2 c1 c2,
      uploadAndInsert_ok env volume _ m _ _ _ _ hok] at htrace
    refine ⟨createDatabaseRecord volume.number m (env.publicUrl (oshigataStoragePath volume m))
      (env.publicUrl (setsumeiStoragePath volume m)) (volume.contentStart + 2 * k + 1)
      (volume.contentStart + 2 * k), mem_created.2 ?_, ?_, ?_, ?_, ?_⟩
    · rw [htrace]; simp
    · simp [createDatabaseRecord, Nat.add_assoc]
    · simp [createDatabaseRecord]
    · rw [htrace]; simp [createDatabaseRecord]
    · rw [htrace]; simp [createDatabaseRecord]
  · exact absurd (c1.trans c2.symm) hne

/-- Witness for C2: on five pages of 200, 50, 60, 210 and 100 KB with every call
succeeding, whatever the start page, item 1 gets the pages `(start, start + 1)` and
item 2 the pages `(start + 3, start + 2)`; the theorem applies to the second pair. -/
theorem processVolume_pair_pages_witness :
    (∀ start, (created (processVolume allSucceed
        { number := 1, contentStart := start, contentEnd := start + 4 } scenarioPages).1).map
        (fun r => (r.item_number, r.pdf_page_oshigata, r.pdf_page_setsumei)) =
      [(1, start, start + 1), (2, start + 3, start + 2)]) ∧
    (scenarioPages[2 * 1]? = some (60 * 1024) ∧ scenarioPages[2 * 1 + 1]? = some (210 * 1024) ∧
      classifyPage (60 * 1024) ≠ classifyPage (210 * 1024) ∧ allOk allSucceed (2 * 1) = true) ∧
    ∃ row, row ∈ created (processVolume allSucceed volumeOne scenarioPages).1 ∧
      row.pdf_page_oshigata = volumeOne.contentStart +
        (if classifyPage (60 * 1024) = PageType.oshigata then 2 * 1 else 2 * 1 + 1) ∧
      row.pdf_page_setsumei = volumeOne.contentStart +
        (if classifyPage (60 * 1024) = PageType.oshigata then 2 * 1 + 1 else 2 * 1) ∧
      Event.upload (if classifyPage (60 * 1024) = PageType.oshigata then 2 * 1 else 2 * 1 + 1)
        (oshigataStoragePath volumeOne row.item_number) true ∈
          (processVolume allSucceed volumeOne scenarioPages).1 ∧
      Event.upload (if classifyPage (60 * 1024) = PageType.oshigata then 2 * 1 + 1 else 2 * 1)
        (setsumeiStoragePath volumeOne row.item_number) true ∈
          (processVolume allSucceed volumeOne scenarioPages).1 :=
  ⟨by
      intro start
      simp [processVolume, pairLoop, processPair, classifyPage_eq, uploadAndInsert, created,
        Event.createdRow, createDatabaseRecord, allSucceed, scenarioPages, Nat.add_assoc],
    ⟨rfl, rfl, by simp [classifyPage_eq], rfl⟩,
    processVolume_pair_pages allSucceed volumeOne scenarioPages 1 (60 * 1024) (210 * 1024)
      rfl rfl (by simp [classifyPage_eq]) rfl⟩

/-- C3: a pair whose two pages receive the same label triggers no upload and no insert
(no upload of either page, no row naming either page number), and every record inserted
has as oshigata image a page of more than 150 KB and as setsumei image a page of at most
150 KB: the pages uploaded to the two paths whose URLs the row carries. -/
theorem processVolume_never_guesses (env : Env) (volume : Volume) (files : List Nat) :
    (∀ k p1 p2, files[2 * k]? = some p1 → files[2 * k + 1]? = some p2 →
      classifyPage p1 = classifyPage p2 →
      (∀ j path ok, Event.upload j path ok ∈ (processVolume env volume files).1 →
        j ≠ 2 * k ∧ j ≠ 2 * k + 1) ∧
      (∀ row ok, Event.insert row ok ∈ (processVolume env volume files).1 →
        row.pdf_page_oshigata ≠ volume.contentStart + 2 * k ∧
        row.pdf_page_oshigata ≠ volume.contentStart + (2 * k + 1) ∧
        row.pdf_page_setsumei ≠ volume.contentStart + 2 * k ∧
        row.pdf_page_setsumei ≠ volume.contentStart + (2 * k + 1))) ∧
    (∀ row ∈ created (processVolume env volume files).1,
      ∃ o s sizeO sizeS, files[o]? = some sizeO ∧ files[s]? = some sizeS ∧
        sizeO > 150 * 1024 ∧ sizeS ≤ 150 * 1024 ∧
        classifyPage sizeO = PageType.oshigata ∧ classifyPage sizeS = PageType.setsumei ∧
        row.pdf_page_oshigata = volume.contentStart + o ∧
        row.pdf_page_setsumei = volume.contentStart + s ∧
        row.oshigata_url = env.publicUrl (oshigataStoragePath volume row.item_number) ∧
        row.setsumei_url = env.publicUrl (setsumeiStoragePath volume row.item_number) ∧
        Event.upload o (oshigataStoragePath volume row.item_number) true ∈
          (processVolume env volume files).1 ∧
        Event.upload s (setsumeiStoragePath volume row.item_number) true ∈
          (processVolume env volume files).1) := by
  constructor
  · intro k p1 p2 hk1 hk2 hsame
    constructor
    · intro j path ok h
      obtain ⟨k2, q1, q2, hq1, hq2, hne, hj⟩ := upload_provenance h
      by_contra hcon
      have hk : k2 = k := by omega
      subst hk
      rw [hk1] at hq1; rw [hk2] at hq2
      injection hq1 with e1; injection hq2 with e2
      subst e1; subst e2
      exact hne hsame
    · intro row ok h
      obtain ⟨k2, q1, q2, o, s, hq1, hq2, hos, hrow, -, -⟩ := insert_provenance h
      have ho : row.pdf_page_oshigata = volume.contentStart + o := by rw [hrow]; rfl
      have hs : row.pdf_page_setsumei = volume.contentStart + s := by rw [hrow]; rfl
      have hne : classifyPage q1 ≠ classifyPage q2 := by
        rcases hos with ⟨-, -, c1, c2⟩ | ⟨-, -, c1, c2⟩ <;> rw [c1, c2] <;> decide
      by_contra hcon
      have hk : k2 = k := by
        rcases hos with ⟨h3, h4, -⟩ | ⟨h3, h4, -⟩ <;> omega
      subst hk
      rw [hk1] at hq1; rw [hk2] at hq2
      injection hq1 with e1; injection hq2 with e2
      subst e1; subst e2
      exact hne hsame
  · intro row hrow
    obtain ⟨k, p1, p2, o, s, hk1, hk2, hos, hr, hu1, hu2⟩ :=
      insert_provenance (mem_created.1 hrow)
    have hpo : row.pdf_page_oshigata = volume.contentStart + o := by rw [hr]; rfl
    have hps : row.pdf_page_setsumei = volume.contentStart + s := by rw [hr]; rfl
    have huo : row.oshigata_url = env.publicUrl (oshigataStoragePath volume row.item_number) := by
      conv_lhs => rw [hr]
      rfl
    have hus : row.setsumei_url = env.publicUrl (setsumeiStoragePath volume row.item_number) := by
      conv_lhs => rw [hr]
      rfl
    have big : ∀ q, classifyPage q = PageType.oshigata → q > 150 * 1024 := by
      intro q hq
      rw [classifyPage_eq] at hq
      by_contra hc
      rw [if_neg (by omega)] at hq
      cases hq
    have small : ∀ q, classifyPage q = PageType.setsumei → q ≤ 150 * 1024 := by
      intro q hq
      rw [classifyPage_eq] at hq
      by_contra hc
      rw [if_pos (by omega)] at hq
      cases hq
    rcases hos with ⟨ho, hs, c1, c2⟩ | ⟨ho, hs, c1, c2⟩
    · subst ho; subst hs
      exact ⟨_, _, p1, p2, hk1, hk2, big _ c1, small _ c2, c1, c2, hpo, hps, huo, hus, hu1, hu2⟩
    · subst ho; subst hs
      exact ⟨_, _, p2, p1, hk2, hk1, big _ c2, small _ c1, c2, c1, hpo, hps, huo, hus, hu1, hu2⟩

/-- Witness for C3: with every call succeeding, the first pair of `ambiguousThenClear`
(two oshigata labels) causes no upload of page 0 or 1, and the trace is exactly the two
uploads and the insert of the second pair after the warning. -/
theorem processVolume_never_guesses_witness :
    (ambiguousThenClear[2 * 0]? = some (200 * 1024) ∧
      ambiguousThenClear[2 * 0 + 1]? = some (210 * 1024) ∧
      classifyPage (200 * 1024) = classifyPage (210 * 1024)) ∧
    (∀ j path ok, Event.upload j path ok ∈
        (processVolume allSucceed volumeOne ambiguousThenClear).1 → j ≠ 2 * 0 ∧ j ≠ 2 * 0 + 1) ∧
    (processVolume allSucceed volumeOne ambiguousThenClear).1 =
      [Event.warn 1,
       Event.upload 2 "vol1/item_001_oshigata.jpg" true,
       Event.upload 3 "vol1/item_001_setsumei.jpg" true,
       Event.insert
         { volume := 1, item_number := 1,
           oshigata_url := "https://store.example/nihonto-images/vol1/item_001_oshigata.jpg",
           setsumei_url := "https://store.example/nihonto-images/vol1/item_001_setsumei.jpg",
           pdf_page_oshigata := 7, pdf_page_setsumei := 8 } true] :=
  ⟨⟨rfl, rfl, by simp [classifyPage_eq]⟩,
    ((processVolume_never_guesses allSucceed volumeOne ambiguousThenClear).1 0 (200 * 1024)
      (210 * 1024) rfl rfl (by simp [classifyPage_eq])).1,
    by
      simp [processVolume, pairLoop, processPair, classifyPage_eq, uploadAndInsert,
        createDatabaseRecord, allSucceed, ambiguousThenClear, volumeOne]
      decide⟩

theorem processPair_created_pages (env : Env) (volume : Volume) (i n p1 p2 : Nat) :
    created (processPair env volume i n p1 p2).1 = [] ∨
      ∃ row, created (processPair env volume i n p1 p2).1 = [row] ∧ pagesAt volume row i := by
  cases h1 : classifyPage p1 <;> cases h2 : classifyPage p2
  · rw [processPair_same env volume i n p1 p2 (by rw [h1, h2])]
    left; simp [created, Event.createdRow]
  · rw [processPair_oshigata_first env volume i n p1 p2 h1 h2,
      (uploadAndInsert_created env volume i n _ _ _ _).1]
    cases allOk env i
    · left; rfl
    · right; exact ⟨_, rfl, Or.inl ⟨rfl, rfl⟩⟩
  · rw [processPair_setsumei_first env volume i n p1 p2 h1 h2,
      (uploadAndInsert_created env volume i n _ _ _ _).1]
    cases allOk env i
    · left; rfl
    · right; exact ⟨_, rfl, Or.inr ⟨rfl, rfl⟩⟩
  · rw [processPair_same env volume i n p1 p2 (by rw [h1, h2])]
    left; simp [created, Event.createdRow]

theorem pairLoop_created_pages (env : Env) (volume : Volume) (files : List Nat) :
    ∀ i n, ∃ ks : List Nat, ks.Pairwise (fun a b => a < b) ∧
      (∀ k ∈ ks, 2 * k + 1 < files.length) ∧
      List.Forall₂ (fun row k => pagesAt volume row (i + 2 * k))
        (created (pairLoop env volume i n files).1) ks := by
  induction files using pair_induction with
  | h0 => intro i n; exact ⟨[], List.Pairwise.nil, by simp, by simp [pairLoop, created]⟩
  | h1 a => intro i n; exact ⟨[], List.Pairwise.nil, by simp, by simp [pairLoop, created]⟩
  | h2 a b rest ih =>
    intro i n
    obtain ⟨ks, hsorted, hbound, hall⟩ := ih (i + 2) (processPair env volume i n a b).2
    have hsorted2 : (ks.map (fun k => k + 1)).Pairwise (fun a b => a < b) := by
      rw [List.pairwise_map]
      exact hsorted.imp (by intro x y hxy; omega)
    have hbound2 : ∀ k ∈ ks.map (fun k => k + 1), 2 * k + 1 < (a :: b :: rest).length := by
      intro k hk
      obtain ⟨k2, hk2, rfl⟩ := List.mem_map.1 hk
      have := hbound k2 hk2
      simp only [List.length_cons]
      omega
    have hall2 : List.Forall₂ (fun row k => pagesAt volume row (i + 2 * k))
        (created (pairLoop env volume (i + 2) (processPair env volume i n a b).2 rest).1)
        (ks.map (fun k => k + 1)) := by
      rw [List.forall₂_map_right_iff]
      refine hall.imp ?_
      intro row k h
      have hi : i + 2 * (k + 1) = i + 2 + 2 * k := by omega
      rw [hi]; exact h
    rw [pairLoop_cons_cons]
    simp only [created_append]
    rcases processPair_created_pages env volume i n a b with h | ⟨row, h, hp⟩
    · rw [h]
      exact ⟨ks.map (fun k => k + 1), hsorted2, hbound2, by simpa using hall2⟩
    · rw [h]
      refine ⟨0 :: ks.map (fun k => k + 1), ?_, ?_, ?_⟩
      · rw [List.pairwise_cons]
        refine ⟨?_, hsorted2⟩
        intro k hk
        obtain ⟨k2, -, rfl⟩ := List.mem_map.1 hk
        omega
      · intro k hk
        rcases List.mem_cons.1 hk with rfl | hk
        · simp
        · exact hbound2 k hk
      · exact List.Forall₂.cons (by simpa using hp) hall2

/-- The events of one pair either contain no error message and keep or advance the
item number, or end with the one error message, for the current item number, which
is then kept. -/
theorem processPair_error_shape (env : Env) (volume : Volume) (i n p1 p2 : Nat) :
    (∀ e ∈ (processPair env volume i n p1 p2).1, e.isError = false) ∨
    (∃ body, (processPair env volume i n p1 p2).1 = body ++ [Event.error n] ∧
      (∀ e ∈ body, e.isError = false) ∧ (processPair env volume i n p1 p2).2 = n) := by
  have key : ∀ o s po ps,
      (∀ e ∈ (uploadAndInsert env volume i n o s po ps).1, e.isError = false) ∨
      (∃ body, (uploadAndInsert env volume i n o s po ps).1 = body ++ [Event.error n] ∧
        (∀ e ∈ body, e.isError = false) ∧ (uploadAndInsert env volume i n o s po ps).2 = n) := by
    intro o s po ps
    unfold uploadAndInsert
    cases env.ok i Call.uploadOshigata <;> cases env.ok i Call.uploadSetsumei <;>
      cases env.ok i Call.insert
    all_goals first
      | (left; simp [Event.isError]; done)
      | (right; exact ⟨[_], rfl, by simp [Event.isError], rfl⟩)
      | (right; exact ⟨[_, _], rfl, by simp [Event.isError], rfl⟩)
      | (right; exact ⟨[_, _, _], rfl, by simp [Event.isError], rfl⟩)
  cases h1 : classifyPage p1 <;> cases h2 : classifyPage p2
  · rw [processPair_same env volume i n p1 p2 (by rw [h1, h2])]
    left; simp [Event.isError]
  · rw [processPair_oshigata_first env volume i n p1 p2 h1 h2]; exact key _ _ _ _
  · rw [processPair_setsumei_first env volume i n p1 p2 h1 h2]; exact key _ _ _ _
  · rw [processPair_same env volume i n p1 p2 (by rw [h1, h2])]
    left; simp [Event.isError]

/-- The first event of a pair is a warning or an upload, never an error message. -/
theorem processPair_head (env : Env) (volume : Volume) (i n p1 p2 : Nat) :
    ∃ e es, (processPair env volume i n p1 p2).1 = e :: es ∧ e.isError = false ∧
      (e.isUpload = true → ∃ j ok, e = Event.upload j (oshigataStoragePath volume n) ok) ∧
      (e.isUpload = false → (∀ e2 ∈ es, e2.isUpload = false) ∧
        (processPair env volume i n p1 p2).2 = n) := by
  have key : ∀ o s po ps, ∃ e es, (uploadAndInsert env volume i n o s po ps).1 = e :: es ∧
      e.isError = false ∧
      (e.isUpload = true → ∃ j ok, e = Event.upload j (oshigataStoragePath volume n) ok) ∧
      (e.isUpload = false → (∀ e2 ∈ es, e2.isUpload = false) ∧
        (uploadAndInsert env volume i n o s po ps).2 = n) := by
    intro o s po ps
    unfold uploadAndInsert
    cases env.ok i Call.uploadOshigata <;> cases env.ok i Call.uploadSetsumei <;>
      cases env.ok i Call.insert <;>
      exact ⟨_, _, rfl, rfl, fun _ => ⟨_, _, rfl⟩, fun h => by simp [Event.isUpload] at h⟩
  cases h1 : classifyPage p1 <;> cases h2 : classifyPage p2
  · rw [processPair_same env volume i n p1 p2 (by rw [h1, h2])]
    exact ⟨_, _, rfl, rfl, fun h => by simp [Event.isUpload] at h, fun _ => ⟨by simp, rfl⟩⟩
  · rw [processPair_oshigata_first env volume i n p1 p2 h1 h2]; exact key _ _ _ _
  · rw [processPair_setsumei_first env volume i n p1 p2 h1 h2]; exact key _ _ _ _
  · rw [processPair_same env volume i n p1 p2 (by rw [h1, h2])]
    exact ⟨_, _, rfl, rfl, fun h => by simp [Event.isUpload] at h, fun _ => ⟨by simp, rfl⟩⟩

theorem append_error_split {body pre post : List Event} {m n : Nat}
    (hb : ∀ e ∈ body, e.isError = false)
    (h : body ++ [Event.error m] = pre ++ Event.error n :: post) :
    pre = body ∧ n = m ∧ post = [] := by
  induction body generalizing pre with
  | nil =>
    cases pre with
    | nil =>
      simp only [List.nil_append, List.cons.injEq] at h
      obtain ⟨h1, h2⟩ := h
      injection h1 with h1
      exact ⟨rfl, h1.symm, h2.symm⟩
    | cons x pre2 =>
      simp only [List.nil_append, List.cons_append, List.cons.injEq] at h
      obtain ⟨-, h2⟩ := h
      cases pre2 <;> simp at h2
  | cons b bs ih =>
    cases pre with
    | nil =>
      simp only [List.nil_append, List.cons_append, List.cons.injEq] at h
      have := hb b (List.mem_cons_self _ _)
      rw [h.1] at this
      simp [Event.isError] at this
    | cons x pre2 =>
      simp only [List.cons_append, List.cons.injEq] at h
      obtain ⟨hx, h2⟩ := h
      obtain ⟨h3, h4, h5⟩ := ih (fun e he => hb e (List.mem_cons_of_mem _ he)) h2
      exact ⟨by rw [hx, h3], h4, h5⟩

theorem processPair_upload_index {env : Env} {volume : Volume} {i n p1 p2 j : Nat}
    {path : String} {ok : Bool}
    (h : Event.upload j path ok ∈ (processPair env volume i n p1 p2).1) :
    j = i ∨ j = i + 1 := by
  rcases mem_processPair h with ⟨hw, -⟩ | ⟨o, s, hos, hu⟩
  · cases hw
  · rcases mem_uploadAndInsert hu with ⟨ok2, h2⟩ | ⟨ok2, h2⟩ | ⟨ok2, h2, -⟩ | h2
    · injection h2 with hj
      rcases hos with ⟨ho, -⟩ | ⟨ho, -⟩ <;> omega
    · injection h2 with hj
      rcases hos with ⟨-, hs, -⟩ | ⟨-, hs, -⟩ <;> omega
    · cases h2
    · cases h2

theorem pairLoop_upload_ge (env : Env) (volume : Volume) (files : List Nat) (i n j : Nat)
    (path : String) (ok : Bool)
    (h : Event.upload j path ok ∈ (pairLoop env volume i n files).1) : i ≤ j := by
  obtain ⟨k, m, p1, p2, -, -, he, -⟩ := mem_pairLoop env volume files i n _ h
  rcases processPair_upload_index he with h | h <;> omega

theorem pairLoop_head_not_error (env : Env) (volume : Volume) (files : List Nat) (i m n : Nat)
    (post : List Event) : (pairLoop env volume i m files).1 ≠ Event.error n :: post := by
  intro h
  match files, h with
  | [], h => simp [pairLoop] at h
  | [_], h => simp [pairLoop] at h
  | a :: b :: rest, h =>
    rw [pairLoop_cons_cons] at h
    obtain ⟨e, es, he, hne, -⟩ := processPair_head env volume i m a b
    rw [he] at h
    simp only [List.cons_append, List.cons.injEq] at h
    rw [h.1] at hne
    simp [Event.isError] at hne

/-- After an error message for item number `n`, the rest of the trace is the trace of
the loop continued on later pages with `itemNumber` still equal to `n`. -/
theorem pairLoop_after_error (env : Env) (volume : Volume) (files : List Nat) :
    ∀ i m pre post n, (pairLoop env volume i m files).1 = pre ++ Event.error n :: post →
      ∃ i2 rest, i + 2 ≤ i2 ∧ post = (pairLoop env volume i2 n rest).1 ∧
        ∀ j path ok, Event.upload j path ok ∈ pre → j < i2 := by
  induction files using pair_induction with
  | h0 => intro i m pre post n h; simp [pairLoop] at h
  | h1 a => intro i m pre post n h; simp [pairLoop] at h
  | h2 a b rest ih =>
    intro i m pre post n h
    rw [pairLoop_cons_cons] at h
    rcases List.append_eq_append_iff.1 h with ⟨a2, hpre, htail⟩ | ⟨c2, hchunk, hrest⟩
    · obtain ⟨i2, rest2, hi, hpost, hup⟩ := ih _ _ _ _ _ htail
      refine ⟨i2, rest2, by omega, hpost, ?_⟩
      intro j path ok hj
      rw [hpre] at hj
      rcases List.mem_append.1 hj with hj | hj
      · rcases processPair_upload_index hj with h3 | h3 <;> omega
      · exact hup j path ok hj
    · cases c2 with
      | nil =>
        simp only [List.nil_append] at hrest
        exact absurd hrest.symm (pairLoop_head_not_error env volume rest _ _ n post)
      | cons c cs =>
        simp only [List.cons_append, List.cons.injEq] at hrest
        obtain ⟨hc, hpost⟩ := hrest
        subst hc
        rcases processPair_error_shape env volume i m a b with hno | ⟨body, hbody, hb, hstate⟩
        · have := hno (Event.error n) (by rw [hchunk]; simp)
          simp [Event.isError] at this
        · rw [hbody] at hchunk
          obtain ⟨h1, h2, h3⟩ := append_error_split hb hchunk
          subst h2
          rw [h3, List.nil_append, hstate] at hpost
          refine ⟨i + 2, rest, le_refl _, hpost, ?_⟩
          intro j path ok hj
          have hj2 : Event.upload j path ok ∈ (processPair env volume i n a b).1 := by
            rw [hbody, ← h1]; exact List.mem_append.2 (Or.inl hj)
          rcases processPair_upload_index hj2 with h4 | h4 <;> omega

/-- The first upload of a loop run started with item number `n` goes to the oshigata
path of item number `n`. -/
theorem pairLoop_first_upload (env : Env) (volume : Volume) (files : List Nat) :
    ∀ i n e, (pairLoop env volume i n files).1.find? Event.isUpload = some e →
      ∃ j ok, e = Event.upload j (oshigataStoragePath volume n) ok := by
  induction files using pair_induction with
  | h0 => intro i n e h; simp [pairLoop] at h
  | h1 a => intro i n e h; simp [pairLoop] at h
  | h2 a b rest ih =>
    intro i n e h
    rw [pairLoop_cons_cons] at h
    obtain ⟨e0, es, he, -, hup, hnot⟩ := processPair_head env volume i n a b
    rw [he] at h
    cases hu : e0.isUpload with
    | true =>
      simp only [List.cons_append, List.find?_cons, hu] at h
      injection h with h
      rw [← h]; exact hup hu
    | false =>
      obtain ⟨hes, hstate⟩ := hnot hu
      simp only [List.cons_append, List.find?_cons, hu, List.find?_append] at h
      have hnone : List.find? Event.isUpload es = none := by
        rw [List.find?_eq_none]
        intro x hx
        simp [hes x hx]
      rw [hnone, hstate] at h
      exact ih _ _ _ (by simpa using h)

/-- C4: the item numbers of the records inserted by one run of `processVolume` are,
in insertion order, exactly `1, 2, ..., k`, and the count reported at the end
(`itemNumber - 1`) is `k`, the number of records inserted. -/
theorem processVolume_item_numbers_dense (env : Env) (volume : Volume) (files : List Nat) :
    (created (processVolume env volume files).1).map Record.item_number =
        List.range' 1 (created (processVolume env volume files).1).length ∧
      (processVolume env volume files).2 = (created (processVolume env volume files).1).length := by
  obtain ⟨h1, h2⟩ := pairLoop_created env volume files 0 1
  refine ⟨h1, ?_⟩
  simp only [processVolume]
  rw [h2]
  omega

/-- C5 (as stated, refuted): with only the insert of the first pair failing, the error
message for item number 1 is followed by the upload and the successful insert of the
second pair under item number 1. -/
theorem failed_number_consumed_counterexample :
    ∃ pre post row, (processVolume firstInsertFails volumeOne twoClearPairs).1 =
        pre ++ Event.error 1 :: post ∧
      Event.upload 2 (oshigataStoragePath volumeOne 1) true ∈ post ∧
      Event.upload 3 (setsumeiStoragePath volumeOne 1) true ∈ post ∧
      Event.insert row true ∈ post ∧ row.item_number = 1 := by
  refine ⟨[Event.upload 0 (oshigataStoragePath volumeOne 1) true,
      Event.upload 1 (setsumeiStoragePath volumeOne 1) true,
      Event.insert (createDatabaseRecord 1 1
        (firstInsertFails.publicUrl (oshigataStoragePath volumeOne 1))
        (firstInsertFails.publicUrl (setsumeiStoragePath volumeOne 1)) 5 6) false],
    [Event.upload 2 (oshigataStoragePath volumeOne 1) true,
      Event.upload 3 (setsumeiStoragePath volumeOne 1) true,
      Event.insert (createDatabaseRecord 1 1
        (firstInsertFails.publicUrl (oshigataStoragePath volumeOne 1))
        (firstInsertFails.publicUrl (setsumeiStoragePath volumeOne 1)) 7 8) true],
    createDatabaseRecord 1 1
        (firstInsertFails.publicUrl (oshigataStoragePath volumeOne 1))
        (firstInsertFails.publicUrl (setsumeiStoragePath volumeOne 1)) 7 8, ?_, ?_, ?_, ?_, rfl⟩
  · simp [processVolume, pairLoop, processPair, classifyPage_eq, uploadAndInsert,
      firstInsertFails, twoClearPairs, volumeOne]
  · simp
  · simp
  · simp

/-- C5 (amended): a failed pair is not retried, but its item number is not consumed.
Whenever the trace of `processVolume` contains the error message for item number `n`,
the next upload after it, if there is one, goes to the oshigata path of the same item
number `n`, and every upload after the message moves a page that lies after all the
pages uploaded before it. -/
theorem processVolume_failed_number_reused (env : Env) (volume : Volume) (files : List Nat)
    (pre post : List Event) (n : Nat)
    (h : (processVolume env volume files).1 = pre ++ Event.error n :: post) :
    (∀ e, post.find? Event.isUpload = some e →
      ∃ j ok, e = Event.upload j (oshigataStoragePath volume n) ok) ∧
    (∀ j path ok, Event.upload j path ok ∈ post →
      ∀ j2 path2 ok2, Event.upload j2 path2 ok2 ∈ pre → j2 < j) := by
  obtain ⟨i2, rest, -, hpost, hpre⟩ := pairLoop_after_error env volume files 0 1 pre post n h
  constructor
  · intro e he
    rw [hpost] at he
    exact pairLoop_first_upload env volume rest i2 n e he
  · intro j path ok hj j2 path2 ok2 hj2
    rw [hpost] at hj
    have h1 := pairLoop_upload_ge env volume rest i2 n j path ok hj
    have h2 := hpre j2 path2 ok2 hj2
    omega

/-- Witness for the amended C5: the run in which only the first insert fails. -/
theorem processVolume_failed_number_reused_witness :
    (processVolume firstInsertFails volumeOne twoClearPairs).1 =
      [Event.upload 0 (oshigataStoragePath volumeOne 1) true,
        Event.upload 1 (setsumeiStoragePath volumeOne 1) true,
        Event.insert (createDatabaseRecord 1 1
          (firstInsertFails.publicUrl (oshigataStoragePath volumeOne 1))
          (firstInsertFails.publicUrl (setsumeiStoragePath volumeOne 1)) 5 6) false] ++
      Event.error 1 ::
      [Event.upload 2 (oshigataStoragePath volumeOne 1) true,
        Event.upload 3 (setsumeiStoragePath volumeOne 1) true,
        Event.insert (createDatabaseRecord 1 1
          (firstInsertFails.publicUrl (oshigataStoragePath volumeOne 1))
          (firstInsertFails.publicUrl (setsumeiStoragePath volumeOne 1)) 7 8) true] ∧
    ∃ j ok, Event.upload 2 (oshigataStoragePath volumeOne 1) true =
      Event.upload j (oshigataStoragePath volumeOne 1) ok :=
  have h : (processVolume firstInsertFails volumeOne twoClearPairs).1 =
      [Event.upload 0 (oshigataStoragePath volumeOne 1) true,
        Event.upload 1 (setsumeiStoragePath volumeOne 1) true,
        Event.insert (createDatabaseRecord 1 1
          (firstInsertFails.publicUrl (oshigataStoragePath volumeOne 1))
          (firstInsertFails.publicUrl (setsumeiStoragePath volumeOne 1)) 5 6) false] ++
      Event.error 1 ::
      [Event.upload 2 (oshigataStoragePath volumeOne 1) true,
        Event.upload 3 (setsumeiStoragePath volumeOne 1) true,
        Event.insert (createDatabaseRecord 1 1
          (firstInsertFails.publicUrl (oshigataStoragePath volumeOne 1))
          (firstInsertFails.publicUrl (setsumeiStoragePath volumeOne 1)) 7 8) true] := by
    simp [processVolume, pairLoop, processPair, classifyPage_eq, uploadAndInsert,
      firstInsertFails, twoClearPairs, volumeOne]
  ⟨h, (processVolume_failed_number_reused firstInsertFails volumeOne twoClearPairs _ _ 1 h).1
    _ rfl⟩

/-- C9: the records created by `processVolume` on `n` pages carry the page numbers
`{contentStart + 2k, contentStart + 2k + 1}` of whole pairs with `2k + 1 < n`, and `k` is
strictly increasing over the records in creation order: no page belongs to two records
and records are emitted in document order. -/
theorem processVolume_pairs_in_order (env : Env) (volume : Volume) (files : List Nat) :
    ∃ ks : List Nat, ks.Pairwise (fun a b => a < b) ∧
      (∀ k ∈ ks, 2 * k + 1 < files.length) ∧
      List.Forall₂
        (fun row k =>
          (row.pdf_page_oshigata = volume.contentStart + 2 * k ∧
              row.pdf_page_setsumei = volume.contentStart + 2 * k + 1) ∨
            (row.pdf_page_oshigata = volume.contentStart + 2 * k + 1 ∧
              row.pdf_page_setsumei = volume.contentStart + 2 * k))
        (created (processVolume env volume files).1) ks := by
  obtain ⟨ks, h1, h2, h3⟩ := pairLoop_created_pages env volume files 0 1
  refine ⟨ks, h1, h2, h3.imp ?_⟩
  intro row k h
  unfold pagesAt at h
  simpa [Nat.add_assoc] using h

/-- C10: an odd trailing page is dropped: for an even-length page sequence `P` and any
extra page `p`, `processVolume` on `P ++ [p]` yields exactly the trace (uploads, inserts,
messages) and the count it yields on `P`; on a single page or none it does nothing. -/
theorem processVolume_drops_odd_page (env : Env) (volume : Volume) (P : List Nat) (p : Nat)
    (h : Even P.length) :
    processVolume env volume (P ++ [p]) = processVolume env volume P ∧
      processVolume env volume [p] = ([], 0) ∧
      processVolume env volume [] = ([], 0) := by
  refine ⟨?_, rfl, rfl⟩
  unfold processVolume
  rw [pairLoop_append_single env volume p P h]

/-- Witness for C10: the five-page scenario is its first four pages plus a dropped one. -/
theorem processVolume_drops_odd_page_witness :
    Even [200 * 1024, 50 * 1024, 60 * 1024, 210 * 1024].length ∧
    (processVolume allSucceed volumeOne
        ([200 * 1024, 50 * 1024, 60 * 1024, 210 * 1024] ++ [100 * 1024]) =
      processVolume allSucceed volumeOne [200 * 1024, 50 * 1024, 60 * 1024, 210 * 1024] ∧
      processVolume allSucceed volumeOne [100 * 1024] = ([], 0) ∧
      processVolume allSucceed volumeOne [] = ([], 0)) :=
  ⟨by decide,
    processVolume_drops_odd_page allSucceed volumeOne
      [200 * 1024, 50 * 1024, 60 * 1024, 210 * 1024] (100 * 1024) (by decide)⟩

theorem uploadedImages_append (a b : List Event) :
    uploadedImages (a ++ b) = uploadedImages a ++ uploadedImages b := by
  simp [uploadedImages, List.filterMap_append]

theorem mem_uploadedImages {trace : List Event} {j : Nat} :
    j ∈ uploadedImages trace ↔ ∃ path ok, Event.upload j path ok ∈ trace := by
  unfold uploadedImages
  rw [List.mem_filterMap]
  constructor
  · rintro ⟨e, he, hj⟩
    cases e with
    | upload i path ok =>
      simp [Event.uploadedImage] at hj
      subst hj
      exact ⟨path, ok, he⟩
    | insert _ _ => simp [Event.uploadedImage] at hj
    | warn _ => simp [Event.uploadedImage] at hj
    | error _ => simp [Event.uploadedImage] at hj
  · rintro ⟨path, ok, h⟩
    exact ⟨_, h, rfl⟩

theorem uploadAndInsert_uploadedImages (env : Env) (volume : Volume) (i n o s po ps : Nat) :
    uploadedImages (uploadAndInsert env volume i n o s po ps).1 =
      if env.ok i Call.uploadOshigata then [o, s] else [o] := by
  unfold uploadAndInsert
  cases env.ok i Call.uploadOshigata <;> cases env.ok i Call.uploadSetsumei <;>
    cases env.ok i Call.insert <;> simp [uploadedImages, Event.uploadedImage]

/-- The images uploaded for one pair: none when the labels agree, otherwise the page
labelled oshigata first, followed by the other page when the first upload succeeded. -/
theorem processPair_uploadedImages (env : Env) (volume : Volume) (i n p1 p2 : Nat) :
    (classifyPage p1 = classifyPage p2 →
      uploadedImages (processPair env volume i n p1 p2).1 = []) ∧
    (classifyPage p1 ≠ classifyPage p2 →
      uploadedImages (processPair env volume i n p1 p2).1 =
        if classifyPage p1 = PageType.oshigata then
          (if env.ok i Call.uploadOshigata then [i, i + 1] else [i])
        else
          (if env.ok i Call.uploadOshigata then [i + 1, i] else [i + 1])) := by
  cases h1 : classifyPage p1 <;> cases h2 : classifyPage p2
  · rw [processPair_same env volume i n p1 p2 (by rw [h1, h2])]
    simp [uploadedImages, Event.uploadedImage]
  · rw [processPair_oshigata_first env volume i n p1 p2 h1 h2, uploadAndInsert_uploadedImages]
    simp
  · rw [processPair_setsumei_first env volume i n p1 p2 h1 h2, uploadAndInsert_uploadedImages]
    simp
  · rw [processPair_same env volume i n p1 p2 (by rw [h1, h2])]
    simp [uploadedImages, Event.uploadedImage]

theorem processPair_uploadedImages_range (env : Env) (volume : Volume) (i n p1 p2 j : Nat)
    (h : j ∈ uploadedImages (processPair env volume i n p1 p2).1) : j = i ∨ j = i + 1 := by
  obtain ⟨path, ok, h2⟩ := mem_uploadedImages.1 h
  exact processPair_upload_index h2

theorem pairLoop_uploadedImages_ge (env : Env) (volume : Volume) (files : List Nat)
    (i n j : Nat) (h : j ∈ uploadedImages (pairLoop env volume i n files).1) : i ≤ j := by
  obtain ⟨path, ok, h2⟩ := mem_uploadedImages.1 h
  exact pairLoop_upload_ge env volume files i n j path ok h2

/-- The page labelled oshigata of every pair with two different labels is uploaded
exactly once by the loop. -/
theorem pairLoop_attempt_count (env : Env) (volume : Volume) (files : List Nat) :
    ∀ i n k p1 p2, files[2 * k]? = some p1 → files[2 * k + 1]? = some p2 →
      classifyPage p1 ≠ classifyPage p2 →
      (uploadedImages (pairLoop env volume i n files).1).count
        (i + (if classifyPage p1 = PageType.oshigata then 2 * k else 2 * k + 1)) = 1 := by
  induction files using pair_induction with
  | h0 => intro i n k p1 p2 h; simp at h
  | h1 a => intro i n k p1 p2 _ h; simp at h
  | h2 a b rest ih =>
    intro i n k p1 p2 hk1 hk2 hne
    rw [pairLoop_cons_cons, uploadedImages_append, List.count_append]
    cases k with
    | zero =>
      simp at hk1 hk2
      subst hk1; subst hk2
      have htail : (uploadedImages
          (pairLoop env volume (i + 2) (processPair env volume i n a b).2 rest).1).count
          (i + (if classifyPage a = PageType.oshigata then 2 * 0 else 2 * 0 + 1)) = 0 := by
        apply List.count_eq_zero_of_not_mem
        intro hmem
        have := pairLoop_uploadedImages_ge env volume rest _ _ _ hmem
        split at this <;> omega
      rw [htail, (processPair_uploadedImages env volume i n a b).2 hne]
      by_cases hc : classifyPage a = PageType.oshigata <;>
        cases env.ok i Call.uploadOshigata <;> simp [hc]
    | succ k =>
      obtain ⟨g1, g2⟩ := getElem?_cons_cons_even a b rest k
      rw [g1] at hk1; rw [g2] at hk2
      have hhead : (uploadedImages (processPair env volume i n a b).1).count
          (i + (if classifyPage p1 = PageType.oshigata then 2 * (k + 1)
            else 2 * (k + 1) + 1)) = 0 := by
        apply List.count_eq_zero_of_not_mem
        intro hmem
        have := processPair_uploadedImages_range env volume i n a b _ hmem
        split at this <;> omega
      have htail := ih (i + 2) (processPair env volume i n a b).2 k p1 p2 hk1 hk2 hne
      have hidx : i + (if classifyPage p1 = PageType.oshigata then 2 * (k + 1)
            else 2 * (k + 1) + 1) =
          i + 2 + (if classifyPage p1 = PageType.oshigata then 2 * k else 2 * k + 1) := by
        split <;> omega
      rw [hhead, hidx, htail]

/-- Uploads happen in document order of the pairs. -/
theorem pairLoop_uploads_in_order (env : Env) (volume : Volume) (files : List Nat) :
    ∀ i n, List.Pairwise (fun a b => (a - i) / 2 ≤ (b - i) / 2)
      (uploadedImages (pairLoop env volume i n files).1) := by
  induction files using pair_induction with
  | h0 => intro i n; simp [pairLoop, uploadedImages]
  | h1 a => intro i n; simp [pairLoop, uploadedImages]
  | h2 a b rest ih =>
    intro i n
    rw [pairLoop_cons_cons, uploadedImages_append, List.pairwise_append]
    refine ⟨?_, ?_, ?_⟩
    · apply List.pairwise_of_forall_mem_list
      intro x hx y _
      have := processPair_uploadedImages_range env volume i n a b x hx
      have h0 : (x - i) / 2 = 0 := by omega
      omega
    · refine (ih (i + 2) (processPair env volume i n a b).2).imp_of_mem ?_
      intro x y hx hy hxy
      have h1 := pairLoop_uploadedImages_ge env volume rest _ _ _ hx
      have h2 := pairLoop_uploadedImages_ge env volume rest _ _ _ hy
      omega
    · intro x hx y _
      have := processPair_uploadedImages_range env volume i n a b x hx
      have h0 : (x - i) / 2 = 0 := by omega
      omega

theorem uploadAndInsert_first_upload (env : Env) (volume : Volume) (i m o s po ps : Nat) :
    Event.upload o (oshigataStoragePath volume m) (env.ok i Call.uploadOshigata) ∈
      (uploadAndInsert env volume i m o s po ps).1 := by
  unfold uploadAndInsert
  cases env.ok i Call.uploadOshigata <;> cases env.ok i Call.uploadSetsumei <;>
    cases env.ok i Call.insert <;> simp

/-- C11: a failure for one item does not abort the volume.  Whatever the pattern of
upload and insert failures, the run returns its trace and count, and every pair whose
two pages have different labels is attempted exactly once: the page labelled oshigata,
which every attempt uploads first, is passed to `uploadImage` exactly once, with the
outcome the environment gives for that pair; the uploads occur in document order of
the pairs. -/
theorem processVolume_attempts_every_pair (env : Env) (volume : Volume) (files : List Nat) :
    (∀ k p1 p2, files[2 * k]? = some p1 → files[2 * k + 1]? = some p2 →
      classifyPage p1 ≠ classifyPage p2 →
      (uploadedImages (processVolume env volume files).1).count
        (if classifyPage p1 = PageType.oshigata then 2 * k else 2 * k + 1) = 1 ∧
      ∃ m, Event.upload (if classifyPage p1 = PageType.oshigata then 2 * k else 2 * k + 1)
        (oshigataStoragePath volume m) (env.ok (2 * k) Call.uploadOshigata) ∈
          (processVolume env volume files).1) ∧
    List.Pairwise (fun a b => a / 2 ≤ b / 2)
      (uploadedImages (processVolume env volume files).1) := by
  constructor
  · intro k p1 p2 hk1 hk2 hne
    constructor
    · have h := pairLoop_attempt_count env volume files 0 1 k p1 p2 hk1 hk2 hne
      rw [Nat.zero_add] at h
      exact h
    · obtain ⟨m, pre, post, hblock⟩ := processPair_block env volume files 0 1 k p1 p2 hk1 hk2
      rw [Nat.zero_add] at hblock
      have htrace : (processVolume env volume files).1 =
          pre ++ (processPair env volume (2 * k) m p1 p2).1 ++ post := hblock
      refine ⟨m, ?_⟩
      rw [htrace]
      apply List.mem_append_left
      apply List.mem_append_right
      cases c1 : classifyPage p1 <;> cases c2 : classifyPage p2
      · exact absurd (c1.trans c2.symm) hne
      · rw [processPair_oshigata_first env volume _ m p1 p2 c1 c2]
        simpa using uploadAndInsert_first_upload env volume (2 * k) m (2 * k) (2 * k + 1)
          (volume.contentStart + 2 * k) (volume.contentStart + 2 * k + 1)
      · rw [processPair_setsumei_first env volume _ m p1 p2 c1 c2]
        simpa using uploadAndInsert_first_upload env volume (2 * k) m (2 * k + 1) (2 * k)
          (volume.contentStart + 2 * k + 1) (volume.contentStart + 2 * k)
      · exact absurd (c1.trans c2.symm) hne
  · have h := pairLoop_uploads_in_order env volume files 0 1
    exact h

/-- Witness for C11: when every upload fails, both pairs of `twoClearPairs` are still
attempted, once each and in order. -/
theorem processVolume_attempts_every_pair_witness :
    (twoClearPairs[2 * 1]? = some (200 * 1024) ∧ twoClearPairs[2 * 1 + 1]? = some (50 * 1024) ∧
      classifyPage (200 * 1024) ≠ classifyPage (50 * 1024)) ∧
    uploadedImages (processVolume allUploadsFail volumeOne twoClearPairs).1 = [0, 2] ∧
    ((uploadedImages (processVolume allUploadsFail volumeOne twoClearPairs).1).count
        (if classifyPage (200 * 1024) = PageType.oshigata then 2 * 1 else 2 * 1 + 1) = 1 ∧
      ∃ m, Event.upload
        (if classifyPage (200 * 1024) = PageType.oshigata then 2 * 1 else 2 * 1 + 1)
        (oshigataStoragePath volumeOne m) (allUploadsFail.ok (2 * 1) Call.uploadOshigata) ∈
          (processVolume allUploadsFail volumeOne twoClearPairs).1) :=
  ⟨⟨rfl, rfl, by simp [classifyPage_eq]⟩,
    by
      simp [processVolume, pairLoop, processPair, classifyPage_eq, uploadAndInsert,
        allUploadsFail, twoClearPairs, uploadedImages, Event.uploadedImage],
    (processVolume_attempts_every_pair allUploadsFail volumeOne twoClearPairs).1 1
      (200 * 1024) (50 * 1024) rfl rfl (by simp [classifyPage_eq])⟩

/-! ### Storage paths -/

theorem toDigitsCore_succ (fuel n : Nat) (ds : List Char) :
    Nat.toDigitsCore 10 (fuel + 1) n ds =
      if n / 10 = 0 then Nat.digitChar (n % 10) :: ds
      else Nat.toDigitsCore 10 fuel (n / 10) (Nat.digitChar (n % 10) :: ds) := by
  simp [Nat.toDigitsCore]

/-- With enough fuel, `Nat.toDigitsCore` prepends the decimal digits of `n`. -/
theorem toDigitsCore_eq (n : Nat) :
    ∀ fuel ds, n < fuel → Nat.toDigitsCore 10 fuel n ds = Nat.toDigits 10 n ++ ds := by
  induction n using Nat.strong_induction_on with
  | _ n ih =>
    intro fuel ds hf
    obtain ⟨f, rfl⟩ : ∃ f, fuel = f + 1 := ⟨fuel - 1, by omega⟩
    unfold Nat.toDigits
    rw [toDigitsCore_succ, toDigitsCore_succ]
    by_cases h : n / 10 = 0
    · simp [h]
    · rw [if_neg h, if_neg h]
      have hlt : n / 10 < n := by omega
      rw [ih (n / 10) hlt f _ (by omega), ih (n / 10) hlt n _ hlt]
      simp

theorem toDigits_of_lt_ten (n : Nat) (h : n < 10) :
    Nat.toDigits 10 n = [Nat.digitChar n] := by
  unfold Nat.toDigits
  rw [toDigitsCore_succ, if_pos (by omega), Nat.mod_eq_of_lt h]

theorem toDigits_of_ten_le (n : Nat) (h : 10 ≤ n) :
    Nat.toDigits 10 n = Nat.toDigits 10 (n / 10) ++ [Nat.digitChar (n % 10)] := by
  conv_lhs => unfold Nat.toDigits
  rw [toDigitsCore_succ, if_neg (by omega), toDigitsCore_eq (n / 10) n _ (by omega)]

theorem toString_data (n : Nat) : (toString n).data = Nat.toDigits 10 n := rfl

theorem toDigits_length_pos (n : Nat) : 0 < (Nat.toDigits 10 n).length := by
  by_cases h : n < 10
  · rw [toDigits_of_lt_ten n h]; simp
  · rw [toDigits_of_ten_le n (by omega)]; simp

theorem padStart_data (s : String) (k : Nat) (c : Char) :
    (padStart s k c).data = List.replicate (k - s.data.length) c ++ s.data := by
  unfold padStart
  rw [String.data_append]
  rfl

/-- The padded item number of at most three digits: hundreds, tens and units. -/
theorem padStart_toString_of_le (n : Nat) (h : n ≤ 999) :
    padStart (toString n) 3 '0' =
      String.mk [Nat.digitChar (n / 100), Nat.digitChar (n / 10 % 10),
        Nat.digitChar (n % 10)] := by
  apply String.ext
  rw [padStart_data, toString_data]
  by_cases h1 : n < 10
  · rw [toDigits_of_lt_ten n h1]
    have e1 : n / 100 = 0 := by omega
    have e2 : n / 10 % 10 = 0 := by omega
    have e3 : n % 10 = n := by omega
    rw [e1, e2, e3]
    rfl
  · by_cases h2 : n < 100
    · rw [toDigits_of_ten_le n (by omega), toDigits_of_lt_ten (n / 10) (by omega)]
      have e1 : n / 100 = 0 := by omega
      have e2 : n / 10 % 10 = n / 10 := by omega
      rw [e1, e2]
      rfl
    · rw [toDigits_of_ten_le n (by omega), toDigits_of_ten_le (n / 10) (by omega),
        toDigits_of_lt_ten (n / 10 / 10) (by omega)]
      have e1 : n / 10 / 10 = n / 100 := by omega
      rw [e1]
      rfl

/-- From four digits on, nothing is padded and nothing is cut. -/
theorem padStart_toString_of_ge (n : Nat) (h : 1000 ≤ n) :
    padStart (toString n) 3 '0' = toString n := by
  apply String.ext
  rw [padStart_data, toString_data]
  have hlen : 3 ≤ (Nat.toDigits 10 n).length := by
    rw [toDigits_of_ten_le n (by omega), toDigits_of_ten_le (n / 10) (by omega),
      toDigits_of_ten_le (n / 10 / 10) (by omega)]
    simp
  have h0 : 3 - (Nat.toDigits 10 n).length = 0 := by omega
  rw [h0]
  rfl

/-- C13: for an item number `n ≤ 999` (in particular `1 ≤ n ≤ 999`, the numbers the
loop assigns) the two upload destinations are
`"vol" + decimal(N) + "/item_" + DDD + "_oshigata.jpg"` and the same with
`"_setsumei.jpg"`, `DDD` being the hundreds, tens and units digits of `n` (its decimal
form padded with `'0'` to exactly three digits); from 1000 on the digits of the item
number are kept in full. -/
theorem storagePath_format (volume : Volume) (n : Nat) (h2 : n ≤ 999) :
    (oshigataStoragePath volume n =
        "vol" ++ toString volume.number ++ "/item_" ++
          String.mk [Nat.digitChar (n / 100), Nat.digitChar (n / 10 % 10),
            Nat.digitChar (n % 10)] ++ "_oshigata.jpg" ∧
      setsumeiStoragePath volume n =
        "vol" ++ toString volume.number ++ "/item_" ++
          String.mk [Nat.digitChar (n / 100), Nat.digitChar (n / 10 % 10),
            Nat.digitChar (n % 10)] ++ "_setsumei.jpg") ∧
    (∀ m, 1000 ≤ m →
      oshigataStoragePath volume m =
        "vol" ++ toString volume.number ++ "/item_" ++ toString m ++ "_oshigata.jpg" ∧
      setsumeiStoragePath volume m =
        "vol" ++ toString volume.number ++ "/item_" ++ toString m ++ "_setsumei.jpg") := by
  refine ⟨⟨?_, ?_⟩, ?_⟩
  · unfold oshigataStoragePath
    rw [padStart_toString_of_le n h2]
  · unfold setsumeiStoragePath
    rw [padStart_toString_of_le n h2]
  · intro m hm
    unfold oshigataStoragePath setsumeiStoragePath
    rw [padStart_toString_of_ge m hm]
    exact ⟨rfl, rfl⟩

/-- Witness for C13: items 42 and 1234 of volume 1. -/
theorem storagePath_format_witness :
    (1 ≤ 42 ∧ 42 ≤ 999) ∧
    oshigataStoragePath volumeOne 42 = "vol1/item_042_oshigata.jpg" ∧
    setsumeiStoragePath volumeOne 42 = "vol1/item_042_setsumei.jpg" ∧
    oshigataStoragePath volumeOne 1234 = "vol1/item_1234_oshigata.jpg" ∧
    setsumeiStoragePath volumeOne 1234 = "vol1/item_1234_setsumei.jpg" :=
  ⟨by decide,
    (storagePath_format volumeOne 42 (by decide)).1.1.trans (by decide),
    (storagePath_format volumeOne 42 (by decide)).1.2.trans (by decide),
    ((storagePath_format volumeOne 42 (by decide)).2 1234 (by decide)).1.trans
      (by decide),
    ((storagePath_format volumeOne 42 (by decide)).2 1234 (by decide)).2.trans
      (by decide)⟩

theorem digitChar_value (d : Nat) (h : d < 10) : (Nat.digitChar d).toNat - 48 = d := by
  interval_cases d <;> rfl

theorem decodeDecimal_append_singleton (cs : List Char) (c : Char) :
    decodeDecimal (cs ++ [c]) = decodeDecimal cs * 10 + (c.toNat - 48) := by
  simp [decodeDecimal, List.foldl_append]

theorem decodeDecimal_toDigits (n : Nat) : decodeDecimal (Nat.toDigits 10 n) = n := by
  induction n using Nat.strong_induction_on with
  | _ n ih =>
    by_cases h : n < 10
    · rw [toDigits_of_lt_ten n h]
      simp [decodeDecimal, digitChar_value n h]
    · rw [toDigits_of_ten_le n (by omega), decodeDecimal_append_singleton,
        ih (n / 10) (by omega), digitChar_value (n % 10) (by omega)]
      omega

theorem decodeDecimal_zeros (k : Nat) (cs : List Char) :
    decodeDecimal (List.replicate k '0' ++ cs) = decodeDecimal cs := by
  induction k with
  | zero => rfl
  | succ k ih =>
    have h : decodeDecimal (List.replicate (k + 1) '0' ++ cs) =
        decodeDecimal (List.replicate k '0' ++ cs) := by
      simp [decodeDecimal, List.replicate_succ]
    rw [h, ih]

/-- The padded item number determines the item number. -/
theorem padStart_toString_injective {m n : Nat}
    (h : padStart (toString m) 3 '0' = padStart (toString n) 3 '0') : m = n := by
  have h2 := congrArg (fun s => decodeDecimal s.data) h
  simp only [padStart_data, toString_data, decodeDecimal_zeros, decodeDecimal_toDigits] at h2
  exact h2

theorem oshigataStoragePath_injective {volume : Volume} {m n : Nat}
    (h : oshigataStoragePath volume m = oshigataStoragePath volume n) : m = n := by
  unfold oshigataStoragePath at h
  have h2 := congrArg String.data h
  simp only [String.data_append] at h2
  have h3 := List.append_cancel_left (List.append_cancel_right h2)
  exact padStart_toString_injective (String.ext h3)

theorem setsumeiStoragePath_injective {volume : Volume} {m n : Nat}
    (h : setsumeiStoragePath volume m = setsumeiStoragePath volume n) : m = n := by
  unfold setsumeiStoragePath at h
  have h2 := congrArg String.data h
  simp only [String.data_append] at h2
  have h3 := List.append_cancel_left (List.append_cancel_right h2)
  exact padStart_toString_injective (String.ext h3)

theorem oshigataStoragePath_ne_setsumeiStoragePath (volume : Volume) (m n : Nat) :
    oshigataStoragePath volume m ≠ setsumeiStoragePath volume n := by
  intro h
  unfold oshigataStoragePath setsumeiStoragePath at h
  have h2 := congrArg String.data h
  simp only [String.data_append] at h2
  have h3 := List.append_inj_right' h2 (by decide)
  revert h3
  decide

/-! ### The asset store -/

theorem storeAfter_append (store : Store) (a b : List Event) :
    storeAfter store (a ++ b) = storeAfter (storeAfter store a) b := by
  simp [storeAfter, List.foldl_append]

/-- A path to which a trace makes no upload keeps its content. -/
theorem storeAfter_frame (trace : List Event) :
    ∀ (store : Store) (p : String),
      (∀ j ok, Event.upload j p ok ∉ trace) → storeAfter store trace p = store p := by
  induction trace with
  | nil => intro store p _; rfl
  | cons e es ih =>
    intro store p h
    have hes : ∀ j ok, Event.upload j p ok ∉ es := by
      intro j ok hmem
      exact h j ok (List.mem_cons_of_mem _ hmem)
    show storeAfter (Event.applyToStore store e) es p = store p
    rw [ih _ p hes]
    cases e with
    | upload j path ok =>
      cases ok with
      | false => rfl
      | true =>
        have hne : p ≠ path := by
          intro hp
          subst hp
          exact h j true (List.mem_cons_self _ _)
        simp [Event.applyToStore, hne]
    | insert _ _ => rfl
    | warn _ => rfl
    | error _ => rfl

/-- The item number never decreases across a pair. -/
theorem processPair_state_ge (env : Env) (volume : Volume) (i n p1 p2 : Nat) :
    n ≤ (processPair env volume i n p1 p2).2 := by
  rw [(processPair_created env volume i n p1 p2).2]
  omega

/-- Every upload of a loop run started with item number `n` goes to one of the two
paths of an item number `m ≥ n`. -/
theorem pairLoop_upload_path (env : Env) (volume : Volume) (files : List Nat) :
    ∀ i n j path ok, Event.upload j path ok ∈ (pairLoop env volume i n files).1 →
      ∃ m, n ≤ m ∧ (path = oshigataStoragePath volume m ∨
        path = setsumeiStoragePath volume m) := by
  induction files using pair_induction with
  | h0 => intro i n j path ok h; simp [pairLoop] at h
  | h1 a => intro i n j path ok h; simp [pairLoop] at h
  | h2 a b rest ih =>
    intro i n j path ok h
    rw [pairLoop_cons_cons] at h
    rcases List.mem_append.1 h with h | h
    · rcases mem_processPair h with ⟨hw, -⟩ | ⟨o, s, -, hu⟩
      · cases hw
      · rcases mem_uploadAndInsert hu with ⟨ok2, h2⟩ | ⟨ok2, h2⟩ | ⟨ok2, h2, -⟩ | h2
        · injection h2 with _ hp _
          exact ⟨n, le_refl _, Or.inl hp⟩
        · injection h2 with _ hp _
          exact ⟨n, le_refl _, Or.inr hp⟩
        · cases h2
        · cases h2
    · obtain ⟨m, hm, hp⟩ := ih _ _ _ _ _ h
      exact ⟨m, le_trans (processPair_state_ge env volume i n a b) hm, hp⟩

/-- A pair either creates no record, or all three calls succeeded: its events are the
two successful uploads and the insert, and the item number advances by one. -/
theorem processPair_created_cases (env : Env) (volume : Volume) (i n p1 p2 : Nat) :
    created (processPair env volume i n p1 p2).1 = [] ∨
    ∃ o s, ((o = i ∧ s = i + 1) ∨ (o = i + 1 ∧ s = i)) ∧
      (processPair env volume i n p1 p2).1 =
        [Event.upload o (oshigataStoragePath volume n) true,
         Event.upload s (setsumeiStoragePath volume n) true,
         Event.insert (createDatabaseRecord volume.number n
           (env.publicUrl (oshigataStoragePath volume n))
           (env.publicUrl (setsumeiStoragePath volume n))
           (volume.contentStart + o) (volume.contentStart + s)) true] ∧
      (processPair env volume i n p1 p2).2 = n + 1 := by
  cases h1 : classifyPage p1 <;> cases h2 : classifyPage p2
  · rw [processPair_same env volume i n p1 p2 (by rw [h1, h2])]
    left; simp [created, Event.createdRow]
  · rw [processPair_oshigata_first env volume i n p1 p2 h1 h2]
    cases hok : allOk env i
    · left
      rw [(uploadAndInsert_created env volume i n _ _ _ _).1, hok]; rfl
    · right
      refine ⟨i, i + 1, Or.inl ⟨rfl, rfl⟩, ?_, ?_⟩
      · rw [uploadAndInsert_ok env volume i n _ _ _ _ hok]; rfl
      · rw [(uploadAndInsert_created env volume i n _ _ _ _).2, hok]; rfl
  · rw [processPair_setsumei_first env volume i n p1 p2 h1 h2]
    cases hok : allOk env i
    · left
      rw [(uploadAndInsert_created env volume i n _ _ _ _).1, hok]; rfl
    · right
      refine ⟨i + 1, i, Or.inr ⟨rfl, rfl⟩, ?_, ?_⟩
      · rw [uploadAndInsert_ok env volume i n _ _ _ _ hok]; rfl
      · rw [(uploadAndInsert_created env volume i n _ _ _ _).2, hok]; rfl
  · rw [processPair_same env volume i n p1 p2 (by rw [h1, h2])]
    left; simp [created, Event.createdRow]

theorem pairLoop_store (env : Env) (volume : Volume) (files : List Nat) :
    ∀ i n (store : Store), ∀ row ∈ created (pairLoop env volume i n files).1,
      rowStored env volume (storeAfter store (pairLoop env volume i n files).1) row := by
  induction files using pair_induction with
  | h0 => intro i n store row h; simp [pairLoop, created] at h
  | h1 a => intro i n store row h; simp [pairLoop, created] at h
  | h2 a b rest ih =>
    intro i n store row h
    rw [pairLoop_cons_cons] at h ⊢
    simp only [created_append] at h
    simp only [storeAfter_append]
    rcases List.mem_append.1 h with h | h
    · rcases processPair_created_cases env volume i n a b with hnone | ⟨o, s, hos, hchunk, hst⟩
      · rw [hnone] at h; cases h
      · rw [hst]
        rw [hchunk] at h ⊢
        have hrow : row = createDatabaseRecord volume.number n
            (env.publicUrl (oshigataStoragePath volume n))
            (env.publicUrl (setsumeiStoragePath volume n))
            (volume.contentStart + o) (volume.contentStart + s) := by
          simpa [created, Event.createdRow] using h
        have hnum : row.item_number = n := by rw [hrow]; rfl
        have hne := oshigataStoragePath_ne_setsumeiStoragePath volume n n
        have hframe : ∀ p, (p = oshigataStoragePath volume n ∨ p = setsumeiStoragePath volume n) →
            ∀ j ok, Event.upload j p ok ∉ (pairLoop env volume (i + 2) (n + 1) rest).1 := by
          intro p hp j ok hmem
          obtain ⟨m, hm, hpath⟩ := pairLoop_upload_path env volume rest _ _ _ _ _ hmem
          rcases hp with hp | hp <;> rcases hpath with hpath | hpath <;> rw [hp] at hpath
          · have := oshigataStoragePath_injective hpath; omega
          · exact oshigataStoragePath_ne_setsumeiStoragePath volume n m hpath
          · exact oshigataStoragePath_ne_setsumeiStoragePath volume m n hpath.symm
          · have := setsumeiStoragePath_injective hpath; omega
        refine ⟨o, s, ?_, ?_, ?_, ?_, ?_, ?_, ?_⟩
        · rw [hnum, storeAfter_frame _ _ _ (hframe _ (Or.inl rfl))]
          simp [storeAfter, Event.applyToStore, hne]
        · rw [hnum, storeAfter_frame _ _ _ (hframe _ (Or.inr rfl))]
          simp [storeAfter, Event.applyToStore]
        · rw [hrow]; rfl
        · rw [hrow]; rfl
        · rcases hos with ⟨h1, h2⟩ | ⟨h1, h2⟩ <;> omega
        · rw [hnum, hrow]; rfl
        · rw [hnum, hrow]; rfl
    · exact ih _ _ _ row h

/-- C14: with the asset store modelled as a map from path to image that a successful
upload overwrites and a failed upload leaves unchanged, after one run of `processVolume`
(from any initial store, under any pattern of failures) every record that was inserted
finds at its oshigata path and at its setsumei path the two pages of its own pair: the
page whose number is `pdf_page_oshigata` and the page whose number is
`pdf_page_setsumei`.  No attempt for another pair has left other content there. -/
theorem processVolume_store_consistent (env : Env) (volume : Volume) (files : List Nat)
    (store : Store) (row : Record) (h : row ∈ created (processVolume env volume files).1) :
    ∃ o s,
      storeAfter store (processVolume env volume files).1
        (oshigataStoragePath volume row.item_number) = some o ∧
      storeAfter store (processVolume env volume files).1
        (setsumeiStoragePath volume row.item_number) = some s ∧
      row.pdf_page_oshigata = volume.contentStart + o ∧
      row.pdf_page_setsumei = volume.contentStart + s ∧
      (s = o + 1 ∨ o = s + 1) ∧
      row.oshigata_url = env.publicUrl (oshigataStoragePath volume row.item_number) ∧
      row.setsumei_url = env.publicUrl (setsumeiStoragePath volume row.item_number) :=
  pairLoop_store env volume files 0 1 store row h

theorem twoFailuresThenSuccess_trace :
    (processVolume twoFailuresThenSuccess volumeOne threeClearPairs).1 =
      [Event.upload 0 (oshigataStoragePath volumeOne 1) true,
        Event.upload 1 (setsumeiStoragePath volumeOne 1) true,
        Event.insert (createDatabaseRecord 1 1
          (twoFailuresThenSuccess.publicUrl (oshigataStoragePath volumeOne 1))
          (twoFailuresThenSuccess.publicUrl (setsumeiStoragePath volumeOne 1)) 5 6) false,
        Event.error 1,
        Event.upload 3 (oshigataStoragePath volumeOne 1) true,
        Event.upload 2 (setsumeiStoragePath volumeOne 1) false,
        Event.error 1,
        Event.upload 4 (oshigataStoragePath volumeOne 1) true,
        Event.upload 5 (setsumeiStoragePath volumeOne 1) true,
        Event.insert thirdPairRow true] := by
  simp [processVolume, pairLoop, processPair, classifyPage_eq, uploadAndInsert,
    twoFailuresThenSuccess, threeClearPairs, volumeOne, thirdPairRow]

/-- Witness for C14: the first pair fails at the insert and the second at its second
upload, both under item number 1; the third pair succeeds under item number 1 and the
store then holds its two pages (indices 4 and 5) at the paths of item 1. -/
theorem processVolume_store_consistent_witness :
    thirdPairRow ∈
      created (processVolume twoFailuresThenSuccess volumeOne threeClearPairs).1 ∧
    uploadedImages (processVolume twoFailuresThenSuccess volumeOne threeClearPairs).1 =
      [0, 1, 3, 2, 4, 5] ∧
    storeAfter (fun _ => none)
        (processVolume twoFailuresThenSuccess volumeOne threeClearPairs).1
        "vol1/item_001_oshigata.jpg" = some 4 ∧
    storeAfter (fun _ => none)
        (processVolume twoFailuresThenSuccess volumeOne threeClearPairs).1
        "vol1/item_001_setsumei.jpg" = some 5 ∧
    ∃ o s,
      storeAfter (fun _ => none)
        (processVolume twoFailuresThenSuccess volumeOne threeClearPairs).1
        (oshigataStoragePath volumeOne thirdPairRow.item_number) = some o ∧
      storeAfter (fun _ => none)
        (processVolume twoFailuresThenSuccess volumeOne threeClearPairs).1
        (setsumeiStoragePath volumeOne thirdPairRow.item_number) = some s ∧
      thirdPairRow.pdf_page_oshigata = volumeOne.contentStart + o ∧
      thirdPairRow.pdf_page_setsumei = volumeOne.contentStart + s ∧
      (s = o + 1 ∨ o = s + 1) ∧
      thirdPairRow.oshigata_url =
        twoFailuresThenSuccess.publicUrl
          (oshigataStoragePath volumeOne thirdPairRow.item_number) ∧
      thirdPairRow.setsumei_url =
        twoFailuresThenSuccess.publicUrl
          (setsumeiStoragePath volumeOne thirdPairRow.item_number) :=
  have hmem : thirdPairRow ∈
      created (processVolume twoFailuresThenSuccess volumeOne threeClearPairs).1 := by
    rw [twoFailuresThenSuccess_trace]
    simp [created, Event.createdRow]
  ⟨hmem, by rw [twoFailuresThenSuccess_trace]; rfl,
    by rw [twoFailuresThenSuccess_trace]; decide,
    by rw [twoFailuresThenSuccess_trace]; decide,
    processVolume_store_consistent twoFailuresThenSuccess volumeOne threeClearPairs
      (fun _ => none) thirdPairRow hmem⟩

/-! ## Properties of `src/translate.js` -/

/-- Complete description of `processItem` by the outcome of its steps. -/
theorem processItem_cases (svc : Services) (w : World) (item : Item) :
    (∃ message, failsBeforeUpdate svc w item message ∧
      (processItem svc w item).1 = failureResult item message ∧
      (processItem svc w item).2.updates = w.updates ∧
      (processItem svc w item).2.rows = w.rows) ∨
    (∃ correctedOCR englishMarkdown message,
      pipelineSucceeds svc w item correctedOCR englishMarkdown ∧
      svc.update (updateCallOf svc item correctedOCR englishMarkdown) = some message ∧
      (processItem svc w item).1 = failureResult item message ∧
      (processItem svc w item).2.updates =
        w.updates ++ [updateCallOf svc item correctedOCR englishMarkdown]) ∨
    (∃ correctedOCR englishMarkdown message,
      pipelineSucceeds svc w item correctedOCR englishMarkdown ∧
      svc.update (updateCallOf svc item correctedOCR englishMarkdown) = none ∧
      svc.unlink (imagePathOf item) = some message ∧
      (processItem svc w item).1 = failureResult item message ∧
      (processItem svc w item).2.updates =
        w.updates ++ [updateCallOf svc item correctedOCR englishMarkdown]) ∨
    (∃ correctedOCR englishMarkdown,
      pipelineSucceeds svc w item correctedOCR englishMarkdown ∧
      svc.update (updateCallOf svc item correctedOCR englishMarkdown) = none ∧
      svc.unlink (imagePathOf item) = none ∧
      (processItem svc w item).1 = successResult item ∧
      (processItem svc w item).2.updates =
        w.updates ++ [updateCallOf svc item correctedOCR englishMarkdown]) := by
  cases h1 : svc.fetchImage item.setsumei_url with
  | error message =>
    left
    refine ⟨message, Or.inl h1, ?_, ?_, ?_⟩ <;> simp only [processItem, h1]
  | ok imageBuffer =>
    cases hw : svc.writeFile (imagePathOf item) imageBuffer with
    | some message =>
      left
      refine ⟨message, Or.inr (Or.inl ⟨imageBuffer, h1, hw⟩), ?_, ?_, ?_⟩ <;>
        (unfold imagePathOf at hw; simp only [processItem, h1, hw])
    | none =>
      cases h2 : extractOCR svc (w.writeFileSync (imagePathOf item) imageBuffer)
          (imagePathOf item) with
      | error message =>
        left
        refine ⟨message, Or.inr (Or.inr (Or.inl ⟨imageBuffer, h1, hw, h2⟩)), ?_, ?_, ?_⟩ <;>
          (unfold imagePathOf at hw h2; simp only [processItem, h1, hw, h2]) <;> rfl
      | ok rawOCR =>
        cases h3 : correctOCR svc rawOCR item.setsumei_url with
        | error message =>
          left
          refine ⟨message,
            Or.inr (Or.inr (Or.inr (Or.inl ⟨imageBuffer, rawOCR, h1, hw, h2, h3⟩))),
            ?_, ?_, ?_⟩ <;>
            (unfold imagePathOf at hw h2; simp only [processItem, h1, hw, h2, h3]) <;> rfl
        | ok correctedOCR =>
          cases h4 : translateToMarkdown svc correctedOCR with
          | error message =>
            left
            refine ⟨message,
              Or.inr (Or.inr (Or.inr (Or.inr
                ⟨imageBuffer, rawOCR, correctedOCR, h1, hw, h2, h3, h4⟩))),
              ?_, ?_, ?_⟩ <;>
              (unfold imagePathOf at hw h2
               simp only [processItem, h1, hw, h2, h3, h4]) <;> rfl
          | ok englishMarkdown =>
            right
            have hp : pipelineSucceeds svc w item correctedOCR englishMarkdown :=
              ⟨imageBuffer, rawOCR, h1, hw, h2, h3, h4⟩
            cases h5 : svc.update (updateCallOf svc item correctedOCR englishMarkdown) with
            | some message =>
              left
              refine ⟨correctedOCR, englishMarkdown, message, hp, h5, ?_, ?_⟩ <;>
                (unfold imagePathOf at hw h2; unfold updateCallOf at h5
                 simp only [processItem, h1, hw, h2, h3, h4, h5]; try rfl)
            | none =>
              right
              cases h6 : svc.unlink (imagePathOf item) with
              | some message =>
                left
                refine ⟨correctedOCR, englishMarkdown, message, hp, h5, rfl, ?_, ?_⟩ <;>
                  (unfold imagePathOf at hw h2 h6; unfold updateCallOf at h5
                   simp only [processItem, h1, hw, h2, h3, h4, h5, h6]; try rfl)
              | none =>
                right
                refine ⟨correctedOCR, englishMarkdown, hp, h5, rfl, ?_, ?_⟩ <;>
                  (unfold imagePathOf at hw h2 h6; unfold updateCallOf at h5
                   simp only [processItem, h1, hw, h2, h3, h4, h5, h6]; try rfl)

theorem failsBeforeUpdate_not_succeeds {svc : Services} {w : World} {item : Item}
    {message correctedOCR englishMarkdown : String}
    (hf : failsBeforeUpdate svc w item message)
    (hs : pipelineSucceeds svc w item correctedOCR englishMarkdown) : False := by
  obtain ⟨buf, raw, s1, sw, s2, s3, s4⟩ := hs
  rcases hf with f1 | ⟨b, f1, fw⟩ | ⟨b, f1, -, f2⟩ | ⟨b, r, f1, -, f2, f3⟩ |
    ⟨b, r, c, f1, -, f2, f3, f4⟩
  · rw [s1] at f1; cases f1
  · rw [s1] at f1; cases f1; rw [sw] at fw; cases fw
  · rw [s1] at f1; cases f1; rw [s2] at f2; cases f2
  · rw [s1] at f1; cases f1; rw [s2] at f2; cases f2; rw [s3] at f3; cases f3
  · rw [s1] at f1; cases f1; rw [s2] at f2; cases f2; rw [s3] at f3; cases f3
    rw [s4] at f4; cases f4

theorem failsBeforeUpdate_unique {svc : Services} {w : World} {item : Item}
    {m1 m2 : String} (h1 : failsBeforeUpdate svc w item m1)
    (h2 : failsBeforeUpdate svc w item m2) : m1 = m2 := by
  rcases h1 with f1 | ⟨b, f1, fw⟩ | ⟨b, f1, fw, f2⟩ | ⟨b, r, f1, fw, f2, f3⟩ |
    ⟨b, r, c, f1, fw, f2, f3, f4⟩ <;>
    rcases h2 with g1 | ⟨b2, g1, gw⟩ | ⟨b2, g1, gw, g2⟩ | ⟨b2, r2, g1, gw, g2, g3⟩ |
      ⟨b2, r2, c2, g1, gw, g2, g3, g4⟩ <;>
    rw [f1] at g1 <;> cases g1 <;> first
      | rfl
      | (rw [fw] at gw; cases gw <;> first
          | rfl
          | (rw [f2] at g2; cases g2 <;> first
              | rfl
              | (rw [f3] at g3; cases g3 <;> first
                  | rfl
                  | (rw [f4] at g4; cases g4; rfl))))

theorem pipelineSucceeds_unique {svc : Services} {w : World} {item : Item}
    {c1 e1 c2 e2 : String} (h1 : pipelineSucceeds svc w item c1 e1)
    (h2 : pipelineSucceeds svc w item c2 e2) : c1 = c2 ∧ e1 = e2 := by
  obtain ⟨b, r, f1, -, f2, f3, f4⟩ := h1
  obtain ⟨b2, r2, g1, -, g2, g3, g4⟩ := h2
  rw [f1] at g1; cases g1
  rw [f2] at g2; cases g2
  rw [f3] at g3; cases g3
  rw [f4] at g4; cases g4
  exact ⟨rfl, rfl⟩

/-- When the image was fetched and no text is detected in it, `processItem` fails before
the update: at the write of the local copy, or else at the OCR step. -/
theorem no_text_fails (svc : Services) (w : World) (item : Item) (imageBuffer : List Nat)
    (h1 : svc.fetchImage item.setsumei_url = Except.ok imageBuffer)
    (h2 : svc.textDetection (some imageBuffer) = Except.ok none ∨
      svc.textDetection (some imageBuffer) = Except.ok (some [])) :
    (svc.writeFile (imagePathOf item) imageBuffer = none →
      failsBeforeUpdate svc w item "No text detected in image") ∧
    ∃ message, failsBeforeUpdate svc w item message := by
  have hocr : svc.writeFile (imagePathOf item) imageBuffer = none →
      failsBeforeUpdate svc w item "No text detected in image" := by
    intro hw
    refine Or.inr (Or.inr (Or.inl ⟨imageBuffer, h1, hw, ?_⟩))
    rcases h2 with h2 | h2 <;> simp [extractOCR, World.writeFileSync, h2]
  refine ⟨hocr, ?_⟩
  cases hw : svc.writeFile (imagePathOf item) imageBuffer with
  | some message => exact ⟨message, Or.inr (Or.inl ⟨imageBuffer, h1, hw⟩)⟩
  | none => exact ⟨_, hocr hw⟩

/-- C6: `processItem` does not mutate the catalog item on failure.  If the fetch, the
write of the local copy, the OCR step (in particular when no text is detected), the
correction or the translation fails, no update is issued and the stored rows are
unchanged; an update is issued only after OCR, correction and translation all succeeded,
and it carries the corrected text as `setsumei_japanese` and the translation as
`setsumei_english`. -/
theorem processItem_no_update_on_failure (svc : Services) (w : World) (item : Item) :
    (∀ message, failsBeforeUpdate svc w item message →
      (processItem svc w item).2.updates = w.updates ∧
      (processItem svc w item).2.rows = w.rows) ∧
    (∀ imageBuffer, svc.fetchImage item.setsumei_url = Except.ok imageBuffer →
      (svc.textDetection (some imageBuffer) = Except.ok none ∨
        svc.textDetection (some imageBuffer) = Except.ok (some [])) →
      (svc.writeFile (imagePathOf item) imageBuffer = none →
        (processItem svc w item).1 = failureResult item "No text detected in image") ∧
      (processItem svc w item).1.success = false ∧
      (processItem svc w item).2.updates = w.updates ∧
      (processItem svc w item).2.rows = w.rows) ∧
    ((processItem svc w item).2.updates ≠ w.updates →
      ∃ correctedOCR englishMarkdown,
        pipelineSucceeds svc w item correctedOCR englishMarkdown ∧
        (processItem svc w item).2.updates = w.updates ++
          [{ id := item.id, setsumei_japanese := correctedOCR,
             setsumei_english := englishMarkdown, translated_at := svc.now }]) := by
  have key : ∀ message, failsBeforeUpdate svc w item message →
      (processItem svc w item).1 = failureResult item message ∧
      (processItem svc w item).2.updates = w.updates ∧
      (processItem svc w item).2.rows = w.rows := by
    intro message hf
    rcases processItem_cases svc w item with ⟨m, hf2, hr, hu, hrows⟩ |
      ⟨c, e, m, hp, -⟩ | ⟨c, e, m, hp, -⟩ | ⟨c, e, hp, -⟩
    · rw [failsBeforeUpdate_unique hf hf2]; exact ⟨hr, hu, hrows⟩
    · exact (failsBeforeUpdate_not_succeeds hf hp).elim
    · exact (failsBeforeUpdate_not_succeeds hf hp).elim
    · exact (failsBeforeUpdate_not_succeeds hf hp).elim
  refine ⟨fun message hf => (key message hf).2, ?_, ?_⟩
  · intro imageBuffer h1 h2
    obtain ⟨hocr, message, hf⟩ := no_text_fails svc w item imageBuffer h1 h2
    obtain ⟨hr, hu, hrows⟩ := key message hf
    refine ⟨fun hw => (key _ (hocr hw)).1, ?_, hu, hrows⟩
    rw [hr]; rfl
  · intro hne
    rcases processItem_cases svc w item with ⟨m, -, -, hu, -⟩ |
      ⟨c, e, m, hp, -, -, hu⟩ | ⟨c, e, m, hp, -, -, -, hu⟩ | ⟨c, e, hp, -, -, -, hu⟩
    · exact absurd hu hne
    · exact ⟨c, e, hp, hu⟩
    · exact ⟨c, e, hp, hu⟩
    · exact ⟨c, e, hp, hu⟩

/-- Witness for C6: an image with no detectable text gives a failure result, no update
call and an unchanged repository. -/
theorem processItem_no_update_on_failure_witness :
    (noTextServices.fetchImage sampleItem.setsumei_url = Except.ok [255, 216, 255] ∧
      noTextServices.textDetection (some [255, 216, 255]) = Except.ok (some []) ∧
      noTextServices.writeFile (imagePathOf sampleItem) [255, 216, 255] = none) ∧
    (processItem noTextServices initialWorld sampleItem).1 =
      failureResult sampleItem "No text detected in image" ∧
    (processItem noTextServices initialWorld sampleItem).1.success = false ∧
    (processItem noTextServices initialWorld sampleItem).2.updates = [] ∧
    (processItem noTextServices initialWorld sampleItem).2.rows = [sampleItem] :=
  ⟨⟨rfl, rfl, rfl⟩,
    ((processItem_no_update_on_failure noTextServices initialWorld sampleItem).2.1
      [255, 216, 255] rfl (Or.inr rfl)).1 rfl,
    ((processItem_no_update_on_failure noTextServices initialWorld sampleItem).2.1
      [255, 216, 255] rfl (Or.inr rfl)).2⟩

/-- C7 (as stated, refuted): for the item with id `x/y`, fetch, OCR, correction,
translation and database update succeed on every argument, yet `processItem` returns
`success = false`, with the message of the failed write of the local copy. -/
theorem processItem_five_steps_counterexample :
    (∀ url, missingDirectoryServices.fetchImage url = Except.ok [255, 216, 255]) ∧
    (∀ w path, extractOCR missingDirectoryServices w path = Except.ok "raw text") ∧
    (∀ rawOCR url, correctOCR missingDirectoryServices rawOCR url =
      Except.ok "corrected text") ∧
    (∀ correctedOCR, translateToMarkdown missingDirectoryServices correctedOCR =
      Except.ok "# Katana") ∧
    (∀ call, missingDirectoryServices.update call = none) ∧
    (processItem missingDirectoryServices initialWorld slashItem).1 =
      { success := false, item_id := "x/y", volume := 1, item_number := 1,
        error := some "ENOENT: no such file or directory, open /tmp/setsumei_x/y.jpg" } :=
  ⟨fun _ => rfl, fun _ _ => rfl, fun _ _ => rfl, fun _ => rfl, fun _ => rfl, by decide⟩

/-- C7 (amended): `processItem` always returns a result carrying the item's id, volume
and item number; `success` is true exactly when every step inside the `try` block
succeeded (fetch, write of the local copy, OCR, correction, translation, database update,
removal of the local copy), and false exactly when one of them failed, in which case the
result carries the error message of the failing step. -/
theorem processItem_returns_result (svc : Services) (w : World) (item : Item) :
    ((processItem svc w item).1.item_id = item.id ∧
      (processItem svc w item).1.volume = item.volume ∧
      (processItem svc w item).1.item_number = item.item_number) ∧
    ((processItem svc w item).1.success = true ↔ allStepsSucceed svc w item) ∧
    ((processItem svc w item).1.success = false ↔ ∃ message, stepFails svc w item message) ∧
    (∀ message, stepFails svc w item message →
      (processItem svc w item).1 =
        { success := false, item_id := item.id, volume := item.volume,
          item_number := item.item_number, error := some message }) ∧
    (allStepsSucceed svc w item →
      (processItem svc w item).1 =
        { success := true, item_id := item.id, volume := item.volume,
          item_number := item.item_number, error := none }) := by
  rcases processItem_cases svc w item with ⟨m, hf, hr, -, -⟩ |
    ⟨c, e, m, hp, hu, hr, -⟩ | ⟨c, e, m, hp, hu, hl, hr, -⟩ | ⟨c, e, hp, hu, hl, hr, -⟩
  · have hno : ¬ allStepsSucceed svc w item := by
      rintro ⟨c, e, hp, -⟩
      exact failsBeforeUpdate_not_succeeds hf hp
    rw [hr]
    refine ⟨⟨rfl, rfl, rfl⟩, ?_, ?_, ?_, fun h => absurd h hno⟩
    · simp [failureResult, hno]
    · simp only [failureResult, true_iff]
      exact ⟨m, Or.inl hf⟩
    · rintro message (hf2 | ⟨c, e, hp, -⟩ | ⟨c, e, hp, -⟩)
      · rw [failsBeforeUpdate_unique hf hf2]; rfl
      · exact (failsBeforeUpdate_not_succeeds hf hp).elim
      · exact (failsBeforeUpdate_not_succeeds hf hp).elim
  · have hno : ¬ allStepsSucceed svc w item := by
      rintro ⟨c2, e2, hp2, hu2, -⟩
      obtain ⟨rfl, rfl⟩ := pipelineSucceeds_unique hp hp2
      rw [hu] at hu2; cases hu2
    rw [hr]
    refine ⟨⟨rfl, rfl, rfl⟩, ?_, ?_, ?_, fun h => absurd h hno⟩
    · simp [failureResult, hno]
    · simp only [failureResult, true_iff]
      exact ⟨m, Or.inr (Or.inl ⟨c, e, hp, hu⟩)⟩
    · rintro message (hf2 | ⟨c2, e2, hp2, hu2⟩ | ⟨c2, e2, hp2, hu2, -⟩)
      · exact (failsBeforeUpdate_not_succeeds hf2 hp).elim
      · obtain ⟨rfl, rfl⟩ := pipelineSucceeds_unique hp hp2
        rw [hu] at hu2; cases hu2; rfl
      · obtain ⟨rfl, rfl⟩ := pipelineSucceeds_unique hp hp2
        rw [hu] at hu2; cases hu2
  · have hno : ¬ allStepsSucceed svc w item := by
      rintro ⟨c2, e2, -, -, hl2⟩
      rw [hl] at hl2; cases hl2
    rw [hr]
    refine ⟨⟨rfl, rfl, rfl⟩, ?_, ?_, ?_, fun h => absurd h hno⟩
    · simp [failureResult, hno]
    · simp only [failureResult, true_iff]
      exact ⟨m, Or.inr (Or.inr ⟨c, e, hp, hu, hl⟩)⟩
    · rintro message (hf2 | ⟨c2, e2, hp2, hu2⟩ | ⟨c2, e2, -, -, hl2⟩)
      · exact (failsBeforeUpdate_not_succeeds hf2 hp).elim
      · obtain ⟨rfl, rfl⟩ := pipelineSucceeds_unique hp hp2
        rw [hu] at hu2; cases hu2
      · rw [hl] at hl2; cases hl2; rfl
  · have hyes : allStepsSucceed svc w item := ⟨c, e, hp, hu, hl⟩
    have hno : ¬ ∃ message, stepFails svc w item message := by
      rintro ⟨message, hf2 | ⟨c2, e2, hp2, hu2⟩ | ⟨c2, e2, -, -, hl2⟩⟩
      · exact failsBeforeUpdate_not_succeeds hf2 hp
      · obtain ⟨rfl, rfl⟩ := pipelineSucceeds_unique hp hp2
        rw [hu] at hu2; cases hu2
      · rw [hl] at hl2; cases hl2
    rw [hr]
    refine ⟨⟨rfl, rfl, rfl⟩, ?_, ?_, ?_, fun _ => rfl⟩
    · simp [successResult, hyes]
    · simp [successResult, hno]
    · intro message h
      exact absurd ⟨message, h⟩ hno

/-- Witness for the amended C7: with no text detected the OCR step fails and the result
is the failure result with that step's message; when the write of the local copy throws
the result carries the message of the write; with working services every step succeeds. -/
theorem processItem_returns_result_witness :
    (processItem noTextServices initialWorld sampleItem).1 =
      { success := false, item_id := "a1", volume := 1, item_number := 1,
        error := some "No text detected in image" } ∧
    (processItem missingDirectoryServices initialWorld slashItem).1 =
      { success := false, item_id := "x/y", volume := 1, item_number := 1,
        error := some "ENOENT: no such file or directory, open /tmp/setsumei_x/y.jpg" } ∧
    (processItem workingServices initialWorld sampleItem).1 =
      { success := true, item_id := "a1", volume := 1, item_number := 1, error := none } :=
  ⟨(processItem_returns_result noTextServices initialWorld sampleItem).2.2.2.1 _
      (Or.inl ((no_text_fails noTextServices initialWorld sampleItem [255, 216, 255] rfl
        (Or.inr rfl)).1 rfl)),
    (processItem_returns_result missingDirectoryServices initialWorld slashItem).2.2.2.1 _
      (Or.inl (Or.inr (Or.inl ⟨[255, 216, 255], rfl, rfl⟩))),
    (processItem_returns_result workingServices initialWorld sampleItem).2.2.2.2
      ⟨"corrected text", "# Katana", ⟨[255, 216, 255], "raw text", rfl, rfl, rfl, rfl, rfl⟩,
        rfl, rfl⟩⟩

/-- C8 (violated by the code): after a run in which the image was written and the OCR
step then fails, the temporary file `/tmp/setsumei_a1.jpg` still exists when
`processItem` has returned; only the success path unlinks it. -/
theorem processItem_leaves_temp_file :
    (processItem noTextServices initialWorld sampleItem).1.success = false ∧
    (processItem noTextServices initialWorld sampleItem).2.files "/tmp/setsumei_a1.jpg" =
      some [255, 216, 255] ∧
    (processItem workingServices initialWorld sampleItem).1.success = true ∧
    (processItem workingServices initialWorld sampleItem).2.files "/tmp/setsumei_a1.jpg" =
      none := by
  refine ⟨?_, ?_, ?_, ?_⟩ <;> decide

/-- The results of the loop are, position by position, the results of `processItem` on
the items, each run in the world left by the previous one. -/
theorem processItems_spec (svc : Nat → Services) (items : List Item) :
    ∀ k w, List.Forall₂ (fun item r => ∃ j w2, r = (processItem (svc j) w2 item).1)
        items (processItems svc k w items).1 := by
  induction items with
  | nil => intro k w; exact List.Forall₂.nil
  | cons item rest ih =>
    intro k w
    exact List.Forall₂.cons ⟨k, w, rfl⟩ (ih _ _)

theorem processItems_get (svc : Nat → Services) (items : List Item) :
    ∀ k w j item, items[j]? = some item →
      ∃ w2, (processItems svc k w items).1[j]? = some (processItem (svc (k + j)) w2 item).1 := by
  induction items with
  | nil => intro k w j item h; simp at h
  | cons a rest ih =>
    intro k w j item h
    cases j with
    | zero =>
      simp at h; subst h
      exact ⟨w, by simp [processItems]⟩
    | succ j =>
      simp at h
      obtain ⟨w2, h2⟩ := ih (k + 1) (processItem (svc k) w a).2 j item h
      refine ⟨w2, ?_⟩
      have hk : k + (j + 1) = k + 1 + j := by omega
      rw [hk]
      simpa [processItems] using h2

theorem filter_success_add (results : List Result) :
    (results.filter (fun r => r.success)).length +
      (results.filter (fun r => !r.success)).length = results.length := by
  induction results with
  | nil => rfl
  | cons r rs ih =>
    cases h : r.success <;> simp [List.filter_cons, h] <;> omega

theorem processItems_length (svc : Nat → Services) (items : List Item) :
    ∀ k w, (processItems svc k w items).1.length = items.length := by
  induction items with
  | nil => intro k w; rfl
  | cons item rest ih => intro k w; simp [processItems, ih]

/-- C12: the loop of `main` runs `processItem` once per item, in the order given and
whatever the earlier outcomes were (the result at position `j` is the result of
`processItem` on the item at position `j`); the reported successful count is the number
of results with `success`, the failed count the number without, and they add up to the
number of items, which is the reported total.  On an empty list `main` returns before
the loop. -/
theorem translateMain_tally (svc : Nat → Services) (w : World) (items : List Item) :
    (processItems svc 0 w items).1.length = items.length ∧
    (∀ j item, items[j]? = some item →
      ∃ w2, (processItems svc 0 w items).1[j]? = some (processItem (svc j) w2 item).1) ∧
    (items = [] → translateMain svc w items = none) ∧
    (items ≠ [] → ∃ summary,
      translateMain svc w items = some ((processItems svc 0 w items).1, summary) ∧
      summary.successful = (processItems svc 0 w items).1.countP (fun r => r.success) ∧
      summary.failed = (processItems svc 0 w items).1.countP (fun r => !r.success) ∧
      summary.successful + summary.failed = items.length ∧
      summary.total = items.length) := by
  refine ⟨processItems_length svc items 0 w, ?_, ?_, ?_⟩
  · intro j item h
    obtain ⟨w2, h2⟩ := processItems_get svc items 0 w j item h
    rw [Nat.zero_add] at h2
    exact ⟨w2, h2⟩
  · intro h; subst h; rfl
  · intro h
    have hlen : ¬ items.length = 0 := by
      intro h0; exact h (List.length_eq_zero.1 h0)
    refine ⟨Summary.mk
        (List.filter (fun r => r.success) (processItems svc 0 w items).1).length
        (List.filter (fun r => !r.success) (processItems svc 0 w items).1).length
        (processItems svc 0 w items).1.length,
      by simp only [translateMain, if_neg hlen], ?_, ?_, ?_, ?_⟩
    · simp [List.countP_eq_length_filter]
    · simp [List.countP_eq_length_filter]
    · simp only []
      rw [filter_success_add, processItems_length]
    · exact processItems_length svc items 0 w

/-- Witness for C12: three items of which the second fails at OCR give two successes
and one failure. -/
theorem translateMain_tally_witness :
    threeItems ≠ [] ∧
    (translateMain secondFailsAtOCR initialWorld threeItems).map (fun out => out.2) =
      some { successful := 2, failed := 1, total := 3 } ∧
    (processItems secondFailsAtOCR 0 initialWorld threeItems).1.map
        (fun r => (r.item_id, r.success, r.error)) =
      [("a1", true, none), ("a2", false, some "No text detected in image"),
        ("a3", true, none)] ∧
    (∃ summary, translateMain secondFailsAtOCR initialWorld threeItems =
        some ((processItems secondFailsAtOCR 0 initialWorld threeItems).1, summary) ∧
      summary.successful =
        (processItems secondFailsAtOCR 0 initialWorld threeItems).1.countP
          (fun r => r.success) ∧
      summary.failed =
        (processItems secondFailsAtOCR 0 initialWorld threeItems).1.countP
          (fun r => !r.success) ∧
      summary.successful + summary.failed = threeItems.length ∧
      summary.total = threeItems.length) :=
  ⟨by decide, by decide, by decide,
    (translateMain_tally secondFailsAtOCR initialWorld threeItems).2.2.2 (by decide)⟩

end Oshi3
